import Mathlib

/-!
Verification of the plugin lifecycle orchestrator of the jaid-core repository
(src/src/index.js, class JaidCore; src/src/JaidCorePlugin.js).

The development is a shallow embedding of the orchestrator's hook machinery:

* JavaScript runtime values that flow through hooks are modelled by `JSVal`
  (undefined, null, booleans, numbers, strings, arrays, plain objects, and
  opaque handles such as the core or logger references).
* JavaScript plain objects used as ordered string-keyed maps (the plugin
  registry `this.plugins`, `configSetup.defaults`, ...) are modelled as
  association lists `List (String × α)` with JS object semantics:
  assignment keeps the position of an existing key and appends new keys,
  `delete` removes the entry, key order is insertion order.
* A plugin instance (`Plugin`) carries the `isManagedByJaidCore` marker, the
  `core`/`logger` back-reference fields, and its other members (hook
  functions or plain values) as an association list.
* `callPlugins` (JaidCore.callPlugins, index.js lines 695-719) is modelled
  with an explicit completion order `perm`: the qualifying hook members are
  started concurrently in registry order, and `results[name] = await result`
  (line 713) inserts each key into the result object when that plugin's
  awaited call completes, i.e. in completion order.  `perm` lists the indices
  of the qualifying entries in the order their awaits resolve; an invalid
  `perm` is ignored (treated as the synchronous in-order schedule).
* `JaidCore.init` (lines 807-1051) is modelled as a sequence of stages
  threading a `CoreState` and producing an event trace plus an
  `Except String Unit` outcome; the external collaborators (essential-config
  loader, Sequelize, Koa, got, the servers) are treated as black boxes: the
  loaded configuration is a parameter, and database/server construction,
  model registration and schema sync are not modelled (only the hook
  dispatches the orchestrator performs around them).  The `handleLog`
  dispatch performed by the wrapped logger (constructor lines 515-522) is
  not modelled; log lines appear as plain trace events.
-/

/-- JavaScript runtime values, as far as the orchestrator inspects them.
`ref tag` stands for an opaque object handle handed to hooks (the core
instance, the logger, the Koa app, the got client). -/
inductive JSVal where
  | undef
  | null
  | bool (b : Bool)
  | num (n : Int)
  | str (s : String)
  | arr (elems : List JSVal)
  | obj (fields : List (String × JSVal))
  | ref (tag : String)

/-- JS truthiness (`Boolean(v)`). -/
def truthy : JSVal → Bool
  | JSVal.undef => false
  | JSVal.null => false
  | JSVal.bool b => b
  | JSVal.num n => n != 0
  | JSVal.str s => s != ""
  | JSVal.arr _ => true
  | JSVal.obj _ => true
  | JSVal.ref _ => true

/-- Strict equality with the boolean `false` (`result === false`),
the removal test of JaidCore.callAndRemovePlugins (index.js line 730). -/
def strictFalse : JSVal → Bool
  | JSVal.bool false => true
  | _ => false

/-- The has-content test of the `has-content` package, for the shapes the
orchestrator applies it to: `undefined`/`null` are empty, strings are
nonempty when they contain a non-whitespace character, arrays and objects
are nonempty when they have an element or key, other values have content. -/
def hasContent : JSVal → Bool
  | JSVal.undef => false
  | JSVal.null => false
  | JSVal.bool _ => true
  | JSVal.num _ => true
  | JSVal.str s => s.trim != ""
  | JSVal.arr elems => !elems.isEmpty
  | JSVal.obj fields => !fields.isEmpty
  | JSVal.ref _ => true

/-- The `ensure-array` package: `undefined`/`null` become `[]`, arrays stay,
any other value becomes a one-element array. -/
def ensureArrayJS : JSVal → List JSVal
  | JSVal.undef => []
  | JSVal.null => []
  | JSVal.arr elems => elems
  | v => [v]

/-- JS property-key coercion for values used as object keys (the entries of
`config.disabledPlugins` are expected to be strings; other primitives are
coerced approximately). -/
def jsKeyString : JSVal → String
  | JSVal.str s => s
  | JSVal.num n => toString n
  | JSVal.bool b => toString b
  | JSVal.undef => "undefined"
  | JSVal.null => "null"
  | _ => "object"

/-! ### Association lists with JS object semantics -/

/-- Property read on an ordered string-keyed map (`o[k]`, absent keys give
`none`). -/
def alGet : List (String × α) → String → Option α
  | [], _ => none
  | kv :: rest, key => if kv.1 == key then some kv.2 else alGet rest key

/-- Property assignment (`o[k] = v`): an existing key keeps its position,
a new key is appended (JS string-key insertion order). -/
def alSet (o : List (String × α)) (k : String) (v : α) : List (String × α) :=
  if (alGet o k).isSome then
    o.map (fun kv => if kv.1 == k then (k, v) else kv)
  else
    o ++ [(k, v)]

/-- Property deletion (`delete o[k]`). -/
def alDelete (o : List (String × α)) (k : String) : List (String × α) :=
  o.filter (fun kv => kv.1 != k)

/-- `Object.assign(target, source)`: assign every source entry, in source
order, into the target. -/
def alAssign (t s : List (String × α)) : List (String × α) :=
  s.foldl (fun acc kv => alSet acc kv.1 kv.2) t

/-- The keys of an ordered map, in order. -/
def alKeys (o : List (String × α)) : List String :=
  o.map (fun kv => kv.1)

/-! ### Plugins and the orchestrator state -/

/-- A member of a plugin instance: either a method (modelled as a function
from the argument list to a result that may throw/reject, `Except.error`)
or a plain value (index.js line 712 distinguishes them by
`typeof member === "function"`). -/
inductive HookMember where
  | fn (f : List JSVal → Except String JSVal)
  | val (v : JSVal)

/-- A registered plugin instance.  `isManagedByJaidCore` is the managed-trait
marker (JaidCorePlugin.js line 9 sets it to `true` on the base class;
arbitrary instances may carry any value or none, hence `JSVal`).  `core` and
`logger` are the back-reference fields injected by the orchestrator
(index.js lines 826-829).  All other members live in `members`. -/
structure Plugin where
  isManagedByJaidCore : JSVal := JSVal.undef
  core : JSVal := JSVal.null
  logger : JSVal := JSVal.null
  members : List (String × HookMember) := []

/-- Member access `instance[memberName]`: a missing member reads as the plain
value `undefined`. -/
def memberOf (p : Plugin) (memberName : String) : HookMember :=
  match alGet p.members memberName with
  | some m => m
  | none => HookMember.val JSVal.undef

/-- The filter of index.js lines 700-703: `instance[memberName] !== undefined`. -/
def memberDefined (p : Plugin) (memberName : String) : Bool :=
  match memberOf p memberName with
  | HookMember.val JSVal.undef => false
  | _ => true

/-- Invoking one member (index.js line 712): a function member is applied to
the arguments, a plain value is used directly (and can never throw). -/
def runMember : HookMember → List JSVal → Except String JSVal
  | HookMember.fn f, args => f args
  | HookMember.val v, _ => Except.ok v

/-- The managed-trait test of index.js lines 750 and 795:
`plugin.isManagedByJaidCore === true`, strictly. -/
def isManagedTrue : JSVal → Bool
  | JSVal.bool true => true
  | _ => false

/-- A configuration-setup object `{fields, defaults, secretKeys}` as built by
JaidCore.getConfigSetup (index.js lines 573-625) and merged by
JaidCore.applyConfigSetup (lines 627-637).  `secretKeys` is a JS array
(duplicates possible), `fields` and `defaults` are plain objects. -/
structure ConfigSetup where
  fields : List (String × JSVal) := []
  defaults : List (String × JSVal) := []
  secretKeys : List JSVal := []

/-- Observable steps of the lifecycle, recorded as a trace.
`hookInvoked h id` marks the start of plugin `id`'s member `h` inside
`callPlugins`; `backRefsSet id` marks the back-reference injection of
index.js lines 826-829; `pluginRemoved`/`pluginDisabled`/
`warnUnknownDisabled` mark registry removals and the warning of line 850;
`infoLog` stands for an informational log line and `errorLogged` for the
single error log of the catch block (line 1048). -/
inductive Event where
  | hookInvoked (hook : String) (pluginId : String)
  | backRefsSet (pluginId : String)
  | pluginRemoved (hook : String) (pluginId : String)
  | pluginDisabled (pluginId : String)
  | warnUnknownDisabled (pluginId : String)
  | infoLog (tag : String)
  | errorLogged
deriving DecidableEq

/-- The orchestrator fields the plugin machinery touches.  `callCount` is
ghost instrumentation numbering the `callPlugins` invocations so that a
schedule oracle can pick each call's completion order;
`handedConfigSetup` is a ghost copy of the setup object at the moment it is
handed to the external config loader (index.js line 835). -/
structure CoreState where
  plugins : List (String × Plugin) := []
  unusedPluginEvents : List String := []
  configSetup : ConfigSetup := {}
  config : List (String × JSVal) := []
  handedConfigSetup : Option ConfigSetup := none
  callCount : Nat := 0

/-! ### The hook invoker (JaidCore.callPlugins, index.js lines 695-719) -/

/-- A valid completion schedule for `n` concurrent jobs: a duplicate-free
list of exactly the indices `0 .. n-1`, read as "the job with the first
listed index finishes first".  Invalid schedules are ignored by
`applyPerm`. -/
def validPerm (perm : List Nat) (n : Nat) : Bool :=
  perm.length == n && decide perm.Nodup && (List.range n).all (fun i => perm.contains i)

/-- Reorder a list of started jobs into completion order. -/
def applyPerm (perm : List Nat) (l : List α) : List α :=
  if validPerm perm l.length then perm.filterMap (fun i => l[i]?) else l

/-- Result of one `callPlugins` invocation: the state (the unused-hook cache
may have grown), the result object (`identifier -> resolved value`, keys in
completion order) or the propagated exception, and the trace. -/
structure CallResult where
  state : CoreState
  result : Except String (List (String × JSVal))
  events : List Event

/-- The entries of the registry whose instance defines `memberName`
(index.js lines 699-703). -/
def definedEntries (st : CoreState) (memberName : String) : List (String × Plugin) :=
  st.plugins.filter (fun kv => memberDefined kv.2 memberName)

/-- The started jobs of one hook call, each paired with its eventual outcome
(index.js lines 710-714). -/
def callOutcomes (st : CoreState) (memberName : String) (args : List JSVal) :
    List (String × Except String JSVal) :=
  (definedEntries st memberName).map
    (fun kv => (kv.1, runMember (memberOf kv.2 memberName) args))

/-- The rejection, if any, of one started job (feeds the `Promise.all`
rejection). -/
def errExtract (kv : String × Except String JSVal) : Option String :=
  match kv.2 with
  | Except.error e => some e
  | Except.ok _ => none

/-- The resolved `identifier -> value` entry of one successfully completed
job. -/
def okExtract (kv : String × Except String JSVal) : Option (String × JSVal) :=
  match kv.2 with
  | Except.ok v => some (kv.1, v)
  | Except.error _ => none

/-- The fan-out of index.js lines 710-714: every qualifying member is started
in registry order. -/
def invokeEvents (st : CoreState) (memberName : String) : List Event :=
  (definedEntries st memberName).map (fun kv => Event.hookInvoked memberName kv.1)

/-- JaidCore.callPlugins (index.js lines 695-719).

* Lines 696-698: a hook name recorded in `unusedPluginEvents` returns an
  empty result object immediately, without consulting the registry.
* Lines 699-707: filter the current registry entries to those defining the
  member; when none qualifies, record the hook name as unused and return an
  empty object.
* Lines 708-715: start every qualifying member concurrently in registry
  order (each start is a `hookInvoked` event); `results[name] = await result`
  stores each resolved value when that call completes, so the result
  object's key order is the completion order given by `perm`.  If a member
  throws or rejects, `Promise.all` rejects with the first error in
  completion order and the exception propagates (no per-plugin recovery,
  no timing log).
* Lines 716-718: on success, emit one informational log line and return the
  results. -/
def callPlugins (st : CoreState) (memberName : String) (args : List JSVal)
    (perm : List Nat) : CallResult :=
  if st.unusedPluginEvents.contains memberName then
    ⟨st, Except.ok [], []⟩
  else if (definedEntries st memberName).isEmpty then
    ⟨{ st with unusedPluginEvents := st.unusedPluginEvents ++ [memberName] },
      Except.ok [], []⟩
  else
    match (applyPerm perm (callOutcomes st memberName args)).findSome? errExtract with
    | some e => ⟨st, Except.error e, invokeEvents st memberName⟩
    | none =>
      ⟨st,
        Except.ok ((applyPerm perm (callOutcomes st memberName args)).filterMap okExtract),
        invokeEvents st memberName ++ [Event.infoLog memberName]⟩

/-- The identifiers of the result object of a successful `callPlugins`, in
key order (empty on a propagated exception). -/
def resultKeys (c : CallResult) : List String :=
  match c.result with
  | Except.ok results => alKeys results
  | Except.error _ => []

/-! ### Config-setup building and merging -/

/-- Optional-chaining property read `v?.key` followed by plain property
access: non-objects (including `undefined`/`null`) yield `undefined`. -/
def jsField (v : JSVal) (key : String) : JSVal :=
  match v with
  | JSVal.obj kvs => (alGet kvs key).getD JSVal.undef
  | _ => JSVal.undef

/-- JaidCore.applyConfigSetup (index.js lines 627-637): deep-merge the
fragment's `fields` and `defaults` objects into the working setup with
`Object.assign` (later entries overwrite same-named keys in place) and
append all of the fragment's `secretKeys`.  Each part is guarded by
`hasContent`, so absent or empty parts (and fragments that are not objects
at all, e.g. a hook that returned `undefined`) are skipped.  Degenerate
fragments whose `fields`/`defaults` are primitives rather than objects are
not modelled (`Object.assign` of a primitive source is a no-op except for
strings, which no caller uses).  The three parts below mirror the three
statement groups of the source; lines 628-630 merge `fields`. -/
def applyFieldsPart (cs : ConfigSetup) (frag : JSVal) : ConfigSetup :=
  match jsField frag "fields" with
  | JSVal.obj fs => if fs.isEmpty then cs else { cs with fields := alAssign cs.fields fs }
  | _ => cs

/-- Lines 631-633 of index.js: merge the fragment's `defaults`. -/
def applyDefaultsPart (cs : ConfigSetup) (frag : JSVal) : ConfigSetup :=
  match jsField frag "defaults" with
  | JSVal.obj ds => if ds.isEmpty then cs else { cs with defaults := alAssign cs.defaults ds }
  | _ => cs

/-- Lines 634-636 of index.js: append the fragment's `secretKeys`. -/
def applySecretKeysPart (cs : ConfigSetup) (frag : JSVal) : ConfigSetup :=
  match jsField frag "secretKeys" with
  | JSVal.arr sk => if sk.isEmpty then cs else { cs with secretKeys := cs.secretKeys ++ sk }
  | _ => cs

def applyConfigSetup (cs : ConfigSetup) (frag : JSVal) : ConfigSetup :=
  applySecretKeysPart (applyDefaultsPart (applyFieldsPart cs frag) frag) frag

/-- The constructor options the lifecycle machinery reads (index.js lines
461-571 normalize them; fields the plugin machinery never touches are
omitted).  `camelName` stands for the camel-cased application name computed
by the external `camelcase` package, and `databasePathResolved` for the
sqlite path computed with the filesystem helpers (both are environment
inputs to the model). -/
structure Options where
  camelName : String := "app"
  database : JSVal := JSVal.bool false
  sqlite : Bool := false
  databasePathResolved : String := ""
  insecurePort : JSVal := JSVal.undef
  securePort : JSVal := JSVal.undef
  useGot : Bool := false
  koaSession : JSVal := JSVal.bool false
  configSetup : JSVal := JSVal.obj []

/-- `this.hasDatabase = Boolean(this.options.database || this.options.sqlite)`
(index.js line 490). -/
def hasDatabase (o : Options) : Bool :=
  truthy o.database || o.sqlite

/-- `this.hasInsecureServer` (index.js line 494). -/
def hasInsecureServer (o : Options) : Bool :=
  truthy o.insecurePort

/-- `this.hasSecureServer` (index.js line 498). -/
def hasSecureServer (o : Options) : Bool :=
  truthy o.securePort

/-- `this.hasServer` (index.js line 502). -/
def hasServer (o : Options) : Bool :=
  hasInsecureServer o || hasSecureServer o

/-- The default database name (index.js line 601):
`isString(options.database) ? options.database : this.camelName`. -/
def databaseNameDefault (o : Options) : JSVal :=
  match o.database with
  | JSVal.str s => JSVal.str s
  | _ => JSVal.str o.camelName

/-- JaidCore.getConfigSetup (index.js lines 573-625): the orchestrator's own
base setup.  `fields` starts empty, `defaults` starts with an empty
disabled-plugin list, and database/server options contribute further
defaults and secret keys in source order. -/
def getConfigSetup (o : Options) : ConfigSetup :=
  let base : ConfigSetup :=
    { fields := [], defaults := [("disabledPlugins", JSVal.arr [])], secretKeys := [] }
  let withDb :=
    if hasDatabase o then
      let afterSync :=
        { base with defaults := alAssign base.defaults [("databaseSchemaSync", JSVal.str "sync")] }
      if o.sqlite then
        { afterSync with
            defaults := alAssign afterSync.defaults
              [("databasePath", JSVal.str o.databasePathResolved)] }
      else
        { afterSync with
            defaults := alAssign afterSync.defaults
              [("databaseName", databaseNameDefault o),
               ("databaseUser", JSVal.str "postgres"),
               ("databaseDialect", JSVal.str "postgres"),
               ("databaseHost", JSVal.str "localhost"),
               ("databasePort", JSVal.num 5432),
               ("timezone", JSVal.str "Europe/Berlin")],
            secretKeys := afterSync.secretKeys ++ [JSVal.str "databasePassword"] }
    else base
  let withInsecure :=
    if hasInsecureServer o then
      { withDb with defaults := alAssign withDb.defaults [("insecurePort", o.insecurePort)] }
    else withDb
  let withSecure :=
    if hasSecureServer o then
      { withInsecure with defaults := alAssign withInsecure.defaults [("securePort", o.securePort)] }
    else withInsecure
  if hasServer o && truthy o.koaSession then
    { withSecure with secretKeys := withSecure.secretKeys ++ [JSVal.str "koaKeys"] }
  else withSecure

/-! ### Lifecycle phases (JaidCore.init, index.js lines 807-1051) -/

/-- Outcome of one lifecycle step: the new state, the events it produced,
and normal completion or a propagated exception. -/
structure StepResult where
  state : CoreState
  events : List Event
  outcome : Except String Unit

/-- Sequential composition of lifecycle steps: a propagated exception skips
every later step (the body of `init` is one `try` block). -/
def seqStep (r : StepResult) (f : CoreState → StepResult) : StepResult :=
  match r.outcome with
  | Except.error _ => r
  | Except.ok _ =>
    let r2 := f r.state
    ⟨r2.state, r.events ++ r2.events, r2.outcome⟩

/-- A `callPlugins` invocation inside `init`, drawing its completion order
from the schedule oracle `sched` by call number (ghost instrumentation:
the source has no counter, the counter only selects which concurrent
completion order this call happens to see). -/
def callPluginsS (sched : Nat → List Nat) (st : CoreState) (memberName : String)
    (args : List JSVal) : CallResult :=
  let r := callPlugins { st with callCount := st.callCount + 1 } memberName args
    (sched st.callCount)
  r

/-- Forget the result object of a hook call whose results the orchestrator
discards. -/
def toStep (c : CallResult) : StepResult :=
  ⟨c.state, c.events, c.result.map (fun _ => ())⟩

/-- The entries a removable-hook call deletes: exactly those whose result is
`=== false` (index.js lines 728-734). -/
def entriesToRemove (results : List (String × JSVal)) : List (String × JSVal) :=
  results.filter (fun kv => strictFalse kv.2)

/-- The removal pass of JaidCore.callAndRemovePlugins over one finished hook
call (index.js lines 727-742): a propagated exception passes through; on
success, exactly the plugins whose result is `=== false` are deleted from
the registry, with one informational line when any was removed. -/
def removeStep (memberName : String) (c : CallResult) : StepResult :=
  match c.result with
  | Except.error e => ⟨c.state, c.events, Except.error e⟩
  | Except.ok results =>
    if (entriesToRemove results).isEmpty then ⟨c.state, c.events, Except.ok ()⟩
    else
      ⟨{ c.state with
          plugins := (entriesToRemove results).foldl (fun ps kv => alDelete ps kv.1)
            c.state.plugins },
        c.events
          ++ (entriesToRemove results).map (fun kv => Event.pluginRemoved memberName kv.1)
          ++ [Event.infoLog "removed"],
        Except.ok ()⟩

/-- JaidCore.callAndRemovePlugins (index.js lines 726-743): call the hook,
then delete from the registry exactly the plugins whose result is
`=== false`.  The non-removed results are discarded. -/
def callAndRemovePlugins (sched : Nat → List Nat) (st : CoreState) (memberName : String)
    (args : List JSVal) : StepResult :=
  removeStep memberName (callPluginsS sched st memberName args)

/-- JaidCore.formatPluginName (index.js lines 783-785) without the terminal
coloring. -/
def formatPluginName (pluginId : String) : String :=
  pluginId

/-- JaidCore.formatPluginNameDetailed (index.js lines 792-801) without the
terminal coloring: the roster entry labels a plugin auto-managed exactly
when `isManagedByJaidCore === true`, self-managed otherwise. -/
def formatPluginNameDetailed (pluginId : String) (p : Plugin) : String :=
  formatPluginName pluginId
    ++ " "
    ++ (if isManagedTrue p.isManagedByJaidCore then "(auto-managed)" else "(self-managed)")

/-- The back-reference injection job of index.js lines 826-829:
`plugin.core = this; plugin.logger = this.logger`. -/
def injectBackRefs (p : Plugin) : Plugin :=
  { p with core := JSVal.ref "core", logger := JSVal.ref "logger" }

/-- JaidCore.doForManagedPluginsSync (index.js lines 748-755) applied to the
back-reference job: every registry entry whose instance has
`isManagedByJaidCore === true` is updated in place (one `backRefsSet` event
each, in registry order); every other entry is skipped untouched. -/
def doForManagedPluginsSync (st : CoreState) : StepResult :=
  ⟨{ st with
      plugins := st.plugins.map
        (fun kv => if isManagedTrue kv.2.isManagedByJaidCore then (kv.1, injectBackRefs kv.2) else kv) },
    (st.plugins.filter (fun kv => isManagedTrue kv.2.isManagedByJaidCore)).map
      (fun kv => Event.backRefsSet kv.1),
    Except.ok ()⟩

/-- JaidCore.gatherConfigSetups (index.js lines 770-777): invoke the
`getConfigSetup` hook and merge every returned fragment into the working
setup, in result-object key order. -/
def gatherStep (c : CallResult) : StepResult :=
  match c.result with
  | Except.error e => ⟨c.state, c.events, Except.error e⟩
  | Except.ok results =>
    ⟨{ c.state with
        configSetup := results.foldl (fun acc kv => applyConfigSetup acc kv.2) c.state.configSetup },
      c.events, Except.ok ()⟩

def gatherConfigSetups (sched : Nat → List Nat) (st : CoreState) : StepResult :=
  gatherStep (callPluginsS sched st "getConfigSetup" [])

/-- The disabled-plugin application of index.js lines 843-856: for each entry
of `config.disabledPlugins` (via `ensure-array`), a registered identifier is
deleted from the registry and collected, an unknown identifier produces a
warning; one informational line follows when anything was disabled.  The
loop cannot throw. -/
def disabledStep (a : CoreState × List Event × List String) (v : JSVal) :
    CoreState × List Event × List String :=
  if (alGet a.1.plugins (jsKeyString v)).isSome then
    ({ a.1 with plugins := alDelete a.1.plugins (jsKeyString v) },
      a.2.1 ++ [Event.pluginDisabled (jsKeyString v)], a.2.2 ++ [jsKeyString v])
  else
    (a.1, a.2.1 ++ [Event.warnUnknownDisabled (jsKeyString v)], a.2.2)

/-- The loop of lines 844-852 over `ensureArray(config.disabledPlugins)`,
threading the state, the produced events, and the successfully disabled
identifiers. -/
def disabledFold (st : CoreState) : CoreState × List Event × List String :=
  (ensureArrayJS ((alGet st.config "disabledPlugins").getD JSVal.undef)).foldl
    disabledStep (st, [], [])

def applyDisabledPlugins (st : CoreState) : StepResult :=
  if hasContent ((alGet st.config "disabledPlugins").getD JSVal.undef) then
    ⟨(disabledFold st).1,
      (disabledFold st).2.1
        ++ (if (disabledFold st).2.2.isEmpty then [] else [Event.infoLog "disabled"]),
      Except.ok ()⟩
  else ⟨st, [], Except.ok ()⟩

/-- The state at the top of `init` (constructor initialization, lines
538-570, plus lines 809-810: `this.configSetup = this.getConfigSetup()`
followed by `this.applyConfigSetup(this.options.configSetup)` — the
caller-supplied options-level overrides are merged into the base setup
here, before any plugin fragment is gathered). -/
def initialState (o : Options) : CoreState :=
  { plugins := [], unusedPluginEvents := [], config := [],
    configSetup := applyConfigSetup (getConfigSetup o) o.configSetup,
    handedConfigSetup := none, callCount := 0 }

/-- Plugin registration (index.js lines 811-824): each caller-supplied entry
is stored under its identifier with JS object-assignment semantics (a
duplicate identifier silently overwrites), followed by the roster log line
when any plugin is registered.  Constructible plugin sources are modelled
as already-instantiated (`isClass` resolution happens here in the source). -/
def phaseRegister (entries : List (String × Plugin)) (st : CoreState) : StepResult :=
  let plugins := entries.foldl (fun acc kv => alSet acc kv.1 kv.2) []
  ⟨{ st with plugins := plugins },
    if plugins.isEmpty then [] else [Event.infoLog "roster"],
    Except.ok ()⟩

/-- Stage 0: state constructed, base setup assembled, caller overrides
merged (lines 809-810). -/
def initStage0 (o : Options) : StepResult :=
  ⟨initialState o, [], Except.ok ()⟩

/-- Stage 1: after plugin registration and the roster log (lines 811-824). -/
def initStage1 (o : Options) (entries : List (String × Plugin)) : StepResult :=
  seqStep (initStage0 o) (phaseRegister entries)

/-- Stage 2: after `await this.callPlugins("setCoreReference", this)`
(line 825) — note this hook runs before the back-references are set. -/
def initStage2 (o : Options) (sched : Nat → List Nat)
    (entries : List (String × Plugin)) : StepResult :=
  seqStep (initStage1 o entries)
    (fun st => toStep (callPluginsS sched st "setCoreReference" [JSVal.ref "core"]))

/-- Stage 3: after the managed-trait back-reference injection (lines
826-829). -/
def initStage3 (o : Options) (sched : Nat → List Nat)
    (entries : List (String × Plugin)) : StepResult :=
  seqStep (initStage2 o sched entries) doForManagedPluginsSync

/-- Stage 4: after `await this.gatherConfigSetups()` (line 830). -/
def initStage4 (o : Options) (sched : Nat → List Nat)
    (entries : List (String × Plugin)) : StepResult :=
  seqStep (initStage3 o sched entries) (gatherConfigSetups sched)

/-- Stage 5: after `await this.callAndRemovePlugins("preInit")` (line 831). -/
def initStage5 (o : Options) (sched : Nat → List Nat)
    (entries : List (String × Plugin)) : StepResult :=
  seqStep (initStage4 o sched entries) (fun st => callAndRemovePlugins sched st "preInit" [])

/-- The external config-loader call (lines 835-842): `essentialConfig` is a
black box whose result object is the parameter `loaded`; the orchestrator
copies it into `this.config` with `Object.assign` (line 842).  The ghost
field `handedConfigSetup` records the setup object handed to the loader.
The new/deprecated-key log lines depend only on loader output and are not
modelled. -/
def phaseLoadConfig (loaded : List (String × JSVal)) (st : CoreState) : StepResult :=
  ⟨{ st with config := alAssign st.config loaded, handedConfigSetup := some st.configSetup },
    [], Except.ok ()⟩

/-- Stage 6: after the config load (lines 835-842). -/
def initStage6 (o : Options) (sched : Nat → List Nat) (entries : List (String × Plugin))
    (loaded : List (String × JSVal)) : StepResult :=
  seqStep (initStage5 o sched entries) (phaseLoadConfig loaded)

/-- Stage 7: after the disabled-plugin application (lines 843-856). -/
def initStage7 (o : Options) (sched : Nat → List Nat) (entries : List (String × Plugin))
    (loaded : List (String × JSVal)) : StepResult :=
  seqStep (initStage6 o sched entries loaded) applyDisabledPlugins

/-- Stage 8: after `await this.callAndRemovePlugins("handleConfig", this.config)`
(line 857). -/
def initStage8 (o : Options) (sched : Nat → List Nat) (entries : List (String × Plugin))
    (loaded : List (String × JSVal)) : StepResult :=
  seqStep (initStage7 o sched entries loaded)
    (fun st => callAndRemovePlugins sched st "handleConfig" [JSVal.obj st.config])

/-- Stage 9: after the server wiring and `await this.callPlugins("handleKoa",
this.koa)` (lines 887-916).  Koa construction is external; the
`this.koaSession` branch (line 903) reads an always-undefined field and is
dead code, so no session wiring or koaKeys error is modelled. -/
def initStage9 (o : Options) (sched : Nat → List Nat) (entries : List (String × Plugin))
    (loaded : List (String × JSVal)) : StepResult :=
  seqStep (initStage8 o sched entries loaded)
    (fun st =>
      if hasServer o then toStep (callPluginsS sched st "handleKoa" [JSVal.ref "koa"])
      else ⟨st, [], Except.ok ()⟩)

/-- Stage 10: after the got client wiring and `await this.callPlugins("handleGot",
this.got)` (lines 917-940). -/
def initStage10 (o : Options) (sched : Nat → List Nat) (entries : List (String × Plugin))
    (loaded : List (String × JSVal)) : StepResult :=
  seqStep (initStage9 o sched entries loaded)
    (fun st =>
      if o.useGot then toStep (callPluginsS sched st "handleGot" [JSVal.ref "got"])
      else ⟨st, [], Except.ok ()⟩)

/-- Stage 11: after the database block (lines 949-1023) as far as the plugin
machinery is concerned: `await this.callPlugins("collectModels")` runs when a
database was requested; database creation, authentication, Sequelize model
registration and schema sync are external collaborator calls and are not
modelled. -/
def initStage11 (o : Options) (sched : Nat → List Nat) (entries : List (String × Plugin))
    (loaded : List (String × JSVal)) : StepResult :=
  seqStep (initStage10 o sched entries loaded)
    (fun st =>
      if hasDatabase o then toStep (callPluginsS sched st "collectModels" [])
      else ⟨st, [], Except.ok ()⟩)

/-- Stage 12: after `await this.callAndRemovePlugins("init")` (line 1024). -/
def initStage12 (o : Options) (sched : Nat → List Nat) (entries : List (String × Plugin))
    (loaded : List (String × JSVal)) : StepResult :=
  seqStep (initStage11 o sched entries loaded)
    (fun st => callAndRemovePlugins sched st "init" [])

/-- Stage 13: after the servers start listening and the model `start`
routines (lines 1025-1043, external) and `await this.callAndRemovePlugins("postInit")`
(line 1044). -/
def initStage13 (o : Options) (sched : Nat → List Nat) (entries : List (String × Plugin))
    (loaded : List (String × JSVal)) : StepResult :=
  seqStep (initStage12 o sched entries loaded)
    (fun st => callAndRemovePlugins sched st "postInit" [])

/-- Stage 14: after `await this.callPlugins("ready")` (line 1045). -/
def initStage14 (o : Options) (sched : Nat → List Nat) (entries : List (String × Plugin))
    (loaded : List (String × JSVal)) : StepResult :=
  seqStep (initStage13 o sched entries loaded)
    (fun st => toStep (callPluginsS sched st "ready" []))

/-- Stage 15: after the final "Ready after ..." log line (line 1046). -/
def initStage15 (o : Options) (sched : Nat → List Nat) (entries : List (String × Plugin))
    (loaded : List (String × JSVal)) : StepResult :=
  seqStep (initStage14 o sched entries loaded)
    (fun st => ⟨st, [Event.infoLog "ready"], Except.ok ()⟩)

/-- JaidCore.init (index.js lines 807-1051): the staged `try` body followed
by the `catch` block (lines 1047-1050), which logs the error once at error
severity and re-throws it to the caller. -/
def initCatch (r : StepResult) : StepResult :=
  match r.outcome with
  | Except.ok _ => r
  | Except.error e => ⟨r.state, r.events ++ [Event.errorLogged], Except.error e⟩

def initModel (o : Options) (sched : Nat → List Nat) (entries : List (String × Plugin))
    (loaded : List (String × JSVal)) : StepResult :=
  initCatch (initStage15 o sched entries loaded)

/-- The exported plugin base class (src/src/JaidCorePlugin.js): it carries
`isManagedByJaidCore = true` and null `core`/`logger` fields.  Its logging
convenience methods (`log`, `logWarning`, `logError`, `logDebug`) are not
lifecycle hooks and are omitted. -/
def jaidCorePluginBase : Plugin :=
  { isManagedByJaidCore := JSVal.bool true, core := JSVal.null,
    logger := JSVal.null, members := [] }

/-! ### Lemmas about the JS object operations -/

theorem alGet_nil (key : String) : alGet ([] : List (String × α)) key = none := rfl

theorem alGet_cons (kv : String × α) (rest : List (String × α)) (key : String) :
    alGet (kv :: rest) key = if kv.1 == key then some kv.2 else alGet rest key := rfl


theorem alGet_map_replace (rest : List (String × α)) (k key : String) (v : α)
    (h : key ≠ k) :
    alGet (rest.map (fun kv => if kv.1 == k then (k, v) else kv)) key = alGet rest key := by
  induction rest with
  | nil => rfl
  | cons kv tail ih =>
    by_cases hk : kv.1 = k
    · have h1 : (kv.1 == k) = true := beq_iff_eq.mpr hk
      have h2 : (k == key) = false := beq_false_of_ne (fun e => h e.symm)
      have h3 : (kv.1 == key) = false := beq_false_of_ne (fun e => h (hk ▸ e).symm)
      simp only [List.map_cons, h1, if_true, alGet_cons, h2, h3, Bool.false_eq_true, if_neg,
        not_false_iff]
      exact ih
    · have h1 : (kv.1 == k) = false := beq_false_of_ne hk
      simp only [List.map_cons, h1, Bool.false_eq_true, if_neg, not_false_iff, alGet_cons]
      by_cases h2 : (kv.1 == key)
      · simp [h2]
      · simp only [h2, Bool.false_eq_true, if_neg, not_false_iff]
        exact ih

theorem alSet_cons_ne (kv : String × α) (rest : List (String × α)) (k : String) (v : α)
    (h : kv.1 ≠ k) : alSet (kv :: rest) k v = kv :: alSet rest k v := by
  have h1 : (kv.1 == k) = false := beq_false_of_ne h
  unfold alSet
  rw [alGet_cons]
  simp only [h1, Bool.false_eq_true, if_neg, not_false_iff]
  by_cases h2 : (alGet rest k).isSome
  · simp [h2, h1, h]
  · simp [h2]

theorem alSet_cons_eq (kv : String × α) (rest : List (String × α)) (k : String) (v : α)
    (h : kv.1 = k) :
    alSet (kv :: rest) k v
      = (k, v) :: rest.map (fun kv => if kv.1 == k then (k, v) else kv) := by
  have h1 : (kv.1 == k) = true := beq_iff_eq.mpr h
  unfold alSet
  rw [alGet_cons]
  simp [h1, h]

theorem alGet_alSet_self (o : List (String × α)) (k : String) (v : α) :
    alGet (alSet o k v) k = some v := by
  induction o with
  | nil => simp [alSet, alGet]
  | cons kv rest ih =>
    by_cases hk : kv.1 = k
    · rw [alSet_cons_eq kv rest k v hk, alGet_cons]
      simp
    · rw [alSet_cons_ne kv rest k v hk, alGet_cons]
      have h1 : (kv.1 == k) = false := beq_false_of_ne hk
      simp only [h1, Bool.false_eq_true, if_neg, not_false_iff]
      exact ih

theorem alGet_alSet_ne (o : List (String × α)) (k key : String) (v : α)
    (h : key ≠ k) : alGet (alSet o k v) key = alGet o key := by
  induction o with
  | nil =>
    have h1 : (k == key) = false := beq_false_of_ne (fun e => h e.symm)
    simp [alSet, alGet, h1]
  | cons kv rest ih =>
    by_cases hk : kv.1 = k
    · rw [alSet_cons_eq kv rest k v hk, alGet_cons, alGet_cons]
      have h1 : (k == key) = false := beq_false_of_ne (fun e => h e.symm)
      have h2 : (kv.1 == key) = false := beq_false_of_ne (fun e => h (hk ▸ e).symm)
      simp only [h1, h2, Bool.false_eq_true, if_neg, not_false_iff]
      exact alGet_map_replace rest k key v h
    · rw [alSet_cons_ne kv rest k v hk, alGet_cons, alGet_cons]
      by_cases h2 : (kv.1 == key)
      · simp [h2]
      · simp only [h2, Bool.false_eq_true, if_neg, not_false_iff]
        exact ih

theorem alGet_eq_none_iff (o : List (String × α)) (key : String) :
    alGet o key = none ↔ key ∉ alKeys o := by
  induction o with
  | nil => simp [alGet, alKeys]
  | cons kv rest ih =>
    rw [alGet_cons]
    by_cases hk : kv.1 = key
    · have h1 : (kv.1 == key) = true := beq_iff_eq.mpr hk
      simp [h1, alKeys, hk]
    · have h1 : (kv.1 == key) = false := beq_false_of_ne hk
      simp only [h1, Bool.false_eq_true, if_neg, not_false_iff, alKeys, List.map_cons,
        List.mem_cons]
      rw [ih]
      unfold alKeys
      constructor
      · intro hn hmem
        rcases hmem with he | hm
        · exact hk he.symm
        · exact hn hm
      · intro hn hm
        exact hn (Or.inr hm)

theorem mem_of_alGet (o : List (String × α)) (key : String) (v : α)
    (h : alGet o key = some v) : (key, v) ∈ o := by
  induction o with
  | nil => simp [alGet] at h
  | cons kv rest ih =>
    rw [alGet_cons] at h
    by_cases hk : (kv.1 == key)
    · simp only [hk, if_true] at h
      have he : kv.1 = key := beq_iff_eq.mp hk
      have hv : kv.2 = v := Option.some.inj h
      have hkv : kv = (key, v) := Prod.ext he hv
      rw [hkv]
      exact List.mem_cons_self _ _
    · simp only [hk, Bool.false_eq_true, if_neg, not_false_iff] at h
      exact List.mem_cons_of_mem _ (ih h)

theorem alGet_of_mem_nodup (o : List (String × α)) (key : String) (v : α)
    (hnd : (alKeys o).Nodup) (h : (key, v) ∈ o) : alGet o key = some v := by
  induction o with
  | nil => simp at h
  | cons kv rest ih =>
    rw [alGet_cons]
    rcases List.mem_cons.mp h with he | hm
    · rw [← he]
      simp
    · have hk : kv.1 ≠ key := by
        intro he
        have : key ∈ alKeys rest := by
          unfold alKeys
          exact List.mem_map.mpr ⟨(key, v), hm, rfl⟩
        unfold alKeys at hnd
        rw [List.map_cons, List.nodup_cons] at hnd
        exact hnd.1 (he ▸ this)
      have h1 : (kv.1 == key) = false := beq_false_of_ne hk
      simp only [h1, Bool.false_eq_true, if_neg, not_false_iff]
      unfold alKeys at hnd ih
      rw [List.map_cons, List.nodup_cons] at hnd
      exact ih hnd.2 hm

theorem alGet_alDelete_self (o : List (String × α)) (k : String) :
    alGet (alDelete o k) k = none := by
  induction o with
  | nil => rfl
  | cons kv rest ih =>
    unfold alDelete at ih ⊢
    rw [List.filter_cons]
    by_cases hk : kv.1 = k
    · have h1 : (kv.1 != k) = false := by simp [bne, beq_iff_eq.mpr hk]
      simp only [h1, Bool.false_eq_true, if_neg, not_false_iff]
      exact ih
    · have h1 : (kv.1 != k) = true := by simp [bne, beq_false_of_ne hk]
      have h2 : (kv.1 == k) = false := beq_false_of_ne hk
      simp only [h1, if_true, alGet_cons, h2, Bool.false_eq_true, if_neg, not_false_iff]
      exact ih

theorem alGet_alDelete_ne (o : List (String × α)) (k key : String) (h : key ≠ k) :
    alGet (alDelete o k) key = alGet o key := by
  induction o with
  | nil => rfl
  | cons kv rest ih =>
    unfold alDelete at ih ⊢
    rw [List.filter_cons]
    by_cases hk : kv.1 = k
    · have h1 : (kv.1 != k) = false := by simp [bne, beq_iff_eq.mpr hk]
      have h2 : (kv.1 == key) = false := beq_false_of_ne (fun e => h (hk ▸ e).symm)
      simp only [h1, Bool.false_eq_true, if_neg, not_false_iff, alGet_cons, h2]
      exact ih
    · have h1 : (kv.1 != k) = true := by simp [bne, beq_false_of_ne hk]
      simp only [h1, if_true, alGet_cons]
      by_cases h2 : (kv.1 == key)
      · simp [h2]
      · simp only [h2, Bool.false_eq_true, if_neg, not_false_iff]
        exact ih

theorem alGet_foldl_alDelete (l : List (String × β)) (ps : List (String × α)) (key : String) :
    alGet (l.foldl (fun acc kv => alDelete acc kv.1) ps) key
      = if key ∈ l.map (fun kv => kv.1) then none else alGet ps key := by
  induction l generalizing ps with
  | nil => simp
  | cons kv rest ih =>
    rw [List.foldl_cons, ih]
    by_cases hk : key = kv.1
    · simp only [List.map_cons, List.mem_cons, hk, true_or, if_true]
      by_cases hm : kv.1 ∈ rest.map (fun kv => kv.1)
      · simp [hm]
      · simp only [hm, if_neg, not_false_iff]
        exact alGet_alDelete_self ps kv.1
    · simp only [List.map_cons, List.mem_cons]
      by_cases hm : key ∈ rest.map (fun kv => kv.1)
      · simp [hm]
      · have hcond : ¬(key = kv.1 ∨ key ∈ rest.map (fun kv => kv.1)) := by
          intro hor
          rcases hor with he | hmm
          · exact hk he
          · exact hm hmm
        rw [if_neg hm, if_neg hcond]
        exact alGet_alDelete_ne ps kv.1 key hk

theorem alAssign_nil (t : List (String × α)) : alAssign t [] = t := rfl

theorem alAssign_cons (t : List (String × α)) (kv : String × α) (rest : List (String × α)) :
    alAssign t (kv :: rest) = alAssign (alSet t kv.1 kv.2) rest := rfl

theorem alGet_alAssign_not_mem (t s : List (String × α)) (key : String)
    (h : alGet s key = none) : alGet (alAssign t s) key = alGet t key := by
  induction s generalizing t with
  | nil => rfl
  | cons kv rest ih =>
    rw [alGet_cons] at h
    by_cases hk : (kv.1 == key)
    · simp [hk] at h
    · simp only [hk, Bool.false_eq_true, if_neg, not_false_iff] at h
      rw [alAssign_cons, ih _ h]
      exact alGet_alSet_ne t kv.1 key kv.2 (fun e => by simp [e] at hk)

theorem alGet_alAssign_mem (t s : List (String × α)) (key : String) (v : α)
    (hnd : (alKeys s).Nodup) (h : alGet s key = some v) :
    alGet (alAssign t s) key = some v := by
  induction s generalizing t with
  | nil => simp [alGet] at h
  | cons kv rest ih =>
    rw [alGet_cons] at h
    unfold alKeys at hnd
    rw [List.map_cons, List.nodup_cons] at hnd
    by_cases hk : (kv.1 == key)
    · simp only [hk, if_true] at h
      have he : kv.1 = key := beq_iff_eq.mp hk
      have hrest : alGet rest key = none := by
        rw [alGet_eq_none_iff]
        exact fun hm => hnd.1 (he ▸ hm)
      rw [alAssign_cons, alGet_alAssign_not_mem _ _ _ hrest, he]
      have hv : kv.2 = v := Option.some.inj h
      rw [hv]
      exact alGet_alSet_self t key v
    · simp only [hk, Bool.false_eq_true, if_neg, not_false_iff] at h
      rw [alAssign_cons]
      exact ih _ hnd.2 h

/-! ### Lemmas about completion schedules -/

theorem validPerm_perm (perm : List Nat) (n : Nat) (h : validPerm perm n = true) :
    perm.Perm (List.range n) := by
  unfold validPerm at h
  simp only [Bool.and_eq_true, beq_iff_eq, decide_eq_true_eq, List.all_eq_true] at h
  obtain ⟨⟨hlen, hnd⟩, hall⟩ := h
  have hsub : List.range n ⊆ perm := fun i hi => List.mem_of_elem_eq_true (hall i hi)
  have hsp : (List.range n).Subperm perm := List.subperm_of_subset (List.nodup_range n) hsub
  have hp := hsp.perm_of_length_le (by rw [hlen, List.length_range])
  exact hp.symm

theorem range_filterMap_getElem (l : List α) :
    (List.range l.length).filterMap (fun i => l[i]?) = l := by
  induction l with
  | nil => rfl
  | cons a t ih =>
    rw [List.length_cons, List.range_succ_eq_map, List.filterMap_cons]
    simp only [List.getElem?_cons_zero]
    rw [List.filterMap_map]
    have hc : ((fun i => (a :: t)[i]?) ∘ Nat.succ) = fun i : Nat => t[i]? := by
      funext i
      simp [List.getElem?_cons_succ]
    rw [hc, ih]

theorem applyPerm_perm (perm : List Nat) (l : List α) (h : validPerm perm l.length = true) :
    (applyPerm perm l).Perm l := by
  unfold applyPerm
  rw [if_pos h]
  have hp : perm.Perm (List.range l.length) := validPerm_perm perm l.length h
  have hfm := hp.filterMap (fun i => l[i]?)
  rw [range_filterMap_getElem] at hfm
  exact hfm

theorem validPerm_range (n : Nat) : validPerm (List.range n) n = true := by
  unfold validPerm
  simp only [Bool.and_eq_true, beq_iff_eq, decide_eq_true_eq, List.all_eq_true,
    List.length_range, List.nodup_range, true_and, and_true]
  intro i hi
  exact List.elem_eq_true_of_mem hi

theorem applyPerm_range (l : List α) : applyPerm (List.range l.length) l = l := by
  unfold applyPerm
  rw [if_pos (validPerm_range l.length), range_filterMap_getElem]

theorem applyPerm_map (perm : List Nat) (l : List α) (f : α → β) :
    applyPerm perm (l.map f) = (applyPerm perm l).map f := by
  unfold applyPerm
  rw [List.length_map]
  by_cases h : validPerm perm l.length = true
  · rw [if_pos h, if_pos h, List.map_filterMap]
    congr 1
    funext i
    rw [List.getElem?_map]
  · rw [if_neg h, if_neg h]

/-! ### Lemmas about the hook invoker -/

theorem callPlugins_cached (st : CoreState) (m : String) (args : List JSVal) (perm : List Nat)
    (hc : st.unusedPluginEvents.contains m = true) :
    callPlugins st m args perm = ⟨st, Except.ok [], []⟩ := by
  unfold callPlugins
  rw [if_pos hc]

theorem callPlugins_unused (st : CoreState) (m : String) (args : List JSVal) (perm : List Nat)
    (hc : st.unusedPluginEvents.contains m = false)
    (he : (definedEntries st m).isEmpty = true) :
    callPlugins st m args perm
      = ⟨{ st with unusedPluginEvents := st.unusedPluginEvents ++ [m] }, Except.ok [], []⟩ := by
  unfold callPlugins
  rw [if_neg (by rw [hc]; simp), if_pos he]

theorem callPlugins_error (st : CoreState) (m : String) (args : List JSVal) (perm : List Nat)
    (e : String)
    (hc : st.unusedPluginEvents.contains m = false)
    (he : (definedEntries st m).isEmpty = false)
    (hfs : (applyPerm perm (callOutcomes st m args)).findSome? errExtract = some e) :
    callPlugins st m args perm = ⟨st, Except.error e, invokeEvents st m⟩ := by
  unfold callPlugins
  rw [if_neg (by rw [hc]; simp), if_neg (by rw [he]; simp), hfs]

theorem callPlugins_success (st : CoreState) (m : String) (args : List JSVal) (perm : List Nat)
    (hc : st.unusedPluginEvents.contains m = false)
    (he : (definedEntries st m).isEmpty = false)
    (hfs : (applyPerm perm (callOutcomes st m args)).findSome? errExtract = none) :
    callPlugins st m args perm
      = ⟨st, Except.ok ((applyPerm perm (callOutcomes st m args)).filterMap okExtract),
          invokeEvents st m ++ [Event.infoLog m]⟩ := by
  unfold callPlugins
  rw [if_neg (by rw [hc]; simp), if_neg (by rw [he]; simp), hfs]

theorem callPlugins_state_eq (st : CoreState) (m : String) (args : List JSVal)
    (perm : List Nat) :
    (callPlugins st m args perm).state = st
      ∨ (callPlugins st m args perm).state
          = { st with unusedPluginEvents := st.unusedPluginEvents ++ [m] } := by
  unfold callPlugins
  by_cases hc : st.unusedPluginEvents.contains m = true
  · rw [if_pos hc]
    exact Or.inl rfl
  · rw [if_neg hc]
    by_cases he : (definedEntries st m).isEmpty = true
    · rw [if_pos he]
      exact Or.inr rfl
    · rw [if_neg he]
      cases hfs : (applyPerm perm (callOutcomes st m args)).findSome? errExtract with
      | some e => exact Or.inl rfl
      | none => exact Or.inl rfl

theorem callPlugins_plugins (st : CoreState) (m : String) (args : List JSVal)
    (perm : List Nat) : (callPlugins st m args perm).state.plugins = st.plugins := by
  rcases callPlugins_state_eq st m args perm with h | h <;> rw [h]

theorem callPlugins_configSetup (st : CoreState) (m : String) (args : List JSVal)
    (perm : List Nat) : (callPlugins st m args perm).state.configSetup = st.configSetup := by
  rcases callPlugins_state_eq st m args perm with h | h <;> rw [h]

theorem callPlugins_config (st : CoreState) (m : String) (args : List JSVal)
    (perm : List Nat) : (callPlugins st m args perm).state.config = st.config := by
  rcases callPlugins_state_eq st m args perm with h | h <;> rw [h]

theorem callPlugins_events_mem (st : CoreState) (m : String) (args : List JSVal)
    (perm : List Nat) (ev : Event)
    (hev : ev ∈ (callPlugins st m args perm).events) :
    (∃ q, ev = Event.hookInvoked m q) ∨ ev = Event.infoLog m := by
  unfold callPlugins at hev
  by_cases hc : st.unusedPluginEvents.contains m = true
  · rw [if_pos hc] at hev
    simp at hev
  · rw [if_neg hc] at hev
    by_cases he : (definedEntries st m).isEmpty = true
    · rw [if_pos he] at hev
      simp at hev
    · rw [if_neg he] at hev
      cases hfs : (applyPerm perm (callOutcomes st m args)).findSome? errExtract with
      | some e =>
        rw [hfs] at hev
        simp only [invokeEvents] at hev
        rcases List.mem_map.mp hev with ⟨kv, hkv, hh⟩
        exact Or.inl ⟨kv.1, hh.symm⟩
      | none =>
        rw [hfs] at hev
        simp only [invokeEvents] at hev
        rcases List.mem_append.mp hev with h1 | h2
        · rcases List.mem_map.mp h1 with ⟨kv, hkv, hh⟩
          exact Or.inl ⟨kv.1, hh.symm⟩
        · simp at h2
          exact Or.inr h2

theorem applyPerm_nil (perm : List Nat) : applyPerm perm ([] : List α) = [] := by
  unfold applyPerm
  split
  · induction perm with
    | nil => rfl
    | cons i rest ih => simp [List.filterMap_cons, ih]
  · rfl

theorem filterMap_ok_keys (l : List (String × Except String JSVal))
    (h : ∀ kv ∈ l, errExtract kv = none) :
    (l.filterMap okExtract).map (fun kv => kv.1) = l.map (fun kv => kv.1) := by
  induction l with
  | nil => rfl
  | cons kv rest ih =>
    have hk := h kv (List.mem_cons_self _ _)
    match hkv : kv.2 with
    | Except.error e =>
      rw [errExtract, hkv] at hk
      simp at hk
    | Except.ok v =>
      rw [List.filterMap_cons]
      have hok : okExtract kv = some (kv.1, v) := by
        rw [okExtract, hkv]
      rw [hok, List.map_cons, List.map_cons]
      have := ih (fun x hx => h x (List.mem_cons_of_mem _ hx))
      rw [this]

theorem callOutcomes_keys (st : CoreState) (m : String) (args : List JSVal) :
    (callOutcomes st m args).map (fun kv => kv.1)
      = (definedEntries st m).map (fun kv => kv.1) := by
  unfold callOutcomes
  rw [List.map_map]
  rfl

/-- The key list of a successful hook call: exactly the qualifying
identifiers, reordered by the completion schedule. -/
theorem callPlugins_ok_keys (st : CoreState) (m : String) (args : List JSVal)
    (perm : List Nat) (results : List (String × JSVal))
    (hc : st.unusedPluginEvents.contains m = false)
    (hok : (callPlugins st m args perm).result = Except.ok results) :
    results.map (fun kv => kv.1)
      = applyPerm perm ((definedEntries st m).map (fun kv => kv.1)) := by
  by_cases he : (definedEntries st m).isEmpty = true
  · rw [callPlugins_unused st m args perm hc he] at hok
    have hres : results = [] := by
      cases hok
      rfl
    have hde : definedEntries st m = [] := List.isEmpty_iff.mp he
    rw [hres, hde]
    simp [applyPerm_nil]
  · have he2 : (definedEntries st m).isEmpty = false := by
      cases hval : (definedEntries st m).isEmpty
      · rfl
      · exact absurd hval he
    cases hfs : (applyPerm perm (callOutcomes st m args)).findSome? errExtract with
    | some e =>
      rw [callPlugins_error st m args perm e hc he2 hfs] at hok
      cases hok
    | none =>
      rw [callPlugins_success st m args perm hc he2 hfs] at hok
      have hres : results = (applyPerm perm (callOutcomes st m args)).filterMap okExtract := by
        cases hok
        rfl
      have hnoerr : ∀ kv ∈ applyPerm perm (callOutcomes st m args), errExtract kv = none :=
        List.findSome?_eq_none_iff.mp hfs
      rw [hres, filterMap_ok_keys _ hnoerr, ← applyPerm_map, callOutcomes_keys]

theorem applyPerm_mem (perm : List Nat) (l : List α) (x : α) :
    x ∈ applyPerm perm l ↔ x ∈ l := by
  by_cases h : validPerm perm l.length = true
  · exact (applyPerm_perm perm l h).mem_iff
  · unfold applyPerm
    rw [if_neg h]

theorem applyPerm_nodup (perm : List Nat) (l : List α) (h : l.Nodup) :
    (applyPerm perm l).Nodup := by
  by_cases hv : validPerm perm l.length = true
  · exact ((applyPerm_perm perm l hv).nodup_iff).mpr h
  · unfold applyPerm
    rw [if_neg hv]
    exact h

theorem definedEntries_keys_nodup (st : CoreState) (m : String)
    (hnd : (alKeys st.plugins).Nodup) :
    ((definedEntries st m).map (fun kv => kv.1)).Nodup := by
  unfold alKeys at hnd
  have hsub : (definedEntries st m).Sublist st.plugins := List.filter_sublist _
  exact (hsub.map (fun kv => kv.1)).nodup hnd

theorem mem_keys_nodup_unique (l : List (String × α)) (k : String) (a b : α)
    (hnd : (l.map (fun kv => kv.1)).Nodup) (h1 : (k, a) ∈ l) (h2 : (k, b) ∈ l) : a = b := by
  have ha := alGet_of_mem_nodup l k a hnd h1
  have hb := alGet_of_mem_nodup l k b hnd h2
  rw [ha] at hb
  exact Option.some.inj hb

/-- A plugin whose member resolved to `r` contributes exactly the entry
`(id, r)` to a successful result object. -/
theorem callPlugins_result_mem (st : CoreState) (m : String) (args : List JSVal)
    (perm : List Nat) (results : List (String × JSVal)) (id : String) (p : Plugin) (r : JSVal)
    (hc2 : st.unusedPluginEvents.contains m = false)
    (hok : (callPlugins st m args perm).result = Except.ok results)
    (hid : (id, p) ∈ st.plugins)
    (hdef : memberDefined p m = true)
    (hrun : runMember (memberOf p m) args = Except.ok r) :
    (id, r) ∈ results := by
  have hfil : (id, p) ∈ definedEntries st m := List.mem_filter.mpr ⟨hid, hdef⟩
  have hout : (id, Except.ok r) ∈ callOutcomes st m args := by
    unfold callOutcomes
    refine List.mem_map.mpr ⟨(id, p), hfil, ?_⟩
    simp [hrun]
  · have he2 : (definedEntries st m).isEmpty = false := by
      cases hval : (definedEntries st m).isEmpty
      · rfl
      · rw [List.isEmpty_iff.mp hval] at hfil
        exact absurd hfil (List.not_mem_nil _)
    cases hfs : (applyPerm perm (callOutcomes st m args)).findSome? errExtract with
    | some e =>
      rw [callPlugins_error st m args perm e hc2 he2 hfs] at hok
      cases hok
    | none =>
      rw [callPlugins_success st m args perm hc2 he2 hfs] at hok
      have hres : results = (applyPerm perm (callOutcomes st m args)).filterMap okExtract := by
        cases hok
        rfl
      rw [hres]
      refine List.mem_filterMap.mpr ⟨(id, Except.ok r), ?_, rfl⟩
      exact (applyPerm_mem perm _ _).mpr hout

/-- Keys of a successful result object are duplicate-free whenever the
registry's keys are. -/
theorem callPlugins_keys_nodup (st : CoreState) (m : String) (args : List JSVal)
    (perm : List Nat) (results : List (String × JSVal))
    (hnd : (alKeys st.plugins).Nodup)
    (hc : st.unusedPluginEvents.contains m = false)
    (hok : (callPlugins st m args perm).result = Except.ok results) :
    (results.map (fun kv => kv.1)).Nodup := by
  rw [callPlugins_ok_keys st m args perm results hc hok]
  exact applyPerm_nodup _ _ (definedEntries_keys_nodup st m hnd)

/-- Workhorse for the removable hooks: after `callAndRemovePlugins`, a
registered plugin whose member resolved to `r` is absent from the registry
exactly when `r === false`, and its entry `(id, r)` appears in the result
object the removal decision was computed from. -/
theorem callAndRemovePlugins_lookup (sched : Nat → List Nat) (st : CoreState) (m : String)
    (args : List JSVal) (results : List (String × JSVal)) (id : String) (p : Plugin) (r : JSVal)
    (hnd : (alKeys st.plugins).Nodup)
    (hc : st.unusedPluginEvents.contains m = false)
    (hok : (callPluginsS sched st m args).result = Except.ok results)
    (hid : alGet st.plugins id = some p)
    (hdef : memberDefined p m = true)
    (hrun : runMember (memberOf p m) args = Except.ok r) :
    alGet (callAndRemovePlugins sched st m args).state.plugins id
        = (if strictFalse r then none else some p)
      ∧ (id, r) ∈ results := by
  have hok2 : (callPlugins { st with callCount := st.callCount + 1 } m args
      (sched st.callCount)).result = Except.ok results := hok
  have hmem : (id, r) ∈ results :=
    callPlugins_result_mem { st with callCount := st.callCount + 1 } m args
      (sched st.callCount) results id p r hc hok2 (mem_of_alGet _ _ _ hid) hdef hrun
  refine ⟨?_, hmem⟩
  have hknd : (results.map (fun kv => kv.1)).Nodup :=
    callPlugins_keys_nodup { st with callCount := st.callCount + 1 } m args
      (sched st.callCount) results hnd hc hok2
  have hplug : (callPluginsS sched st m args).state.plugins = st.plugins :=
    callPlugins_plugins { st with callCount := st.callCount + 1 } m args (sched st.callCount)
  unfold callAndRemovePlugins removeStep
  rw [hok]
  dsimp only
  by_cases hrf : strictFalse r = true
  · have hrm : (id, r) ∈ entriesToRemove results := List.mem_filter.mpr ⟨hmem, hrf⟩
    have hne : (entriesToRemove results).isEmpty = false := by
      cases hval : (entriesToRemove results).isEmpty
      · rfl
      · rw [List.isEmpty_iff.mp hval] at hrm
        exact absurd hrm (List.not_mem_nil _)
    rw [if_neg (by rw [hne]; simp), hrf, if_pos rfl]
    dsimp only
    rw [alGet_foldl_alDelete, if_pos (List.mem_map.mpr ⟨(id, r), hrm, rfl⟩)]
  · have hrf2 : strictFalse r = false := by
      cases hval : strictFalse r
      · rfl
      · exact absurd hval hrf
    have hnotin : id ∉ (entriesToRemove results).map (fun kv => kv.1) := by
      intro hin
      rcases List.mem_map.mp hin with ⟨kv, hkv, hkid⟩
      have hkvr : kv ∈ results := (List.mem_filter.mp hkv).1
      have hkf : strictFalse kv.2 = true := (List.mem_filter.mp hkv).2
      have hkv2 : (id, kv.2) ∈ results := by
        have hp2 : kv = (id, kv.2) := Prod.ext hkid rfl
        rw [← hp2]
        exact hkvr
      have huniq := mem_keys_nodup_unique results id r kv.2 hknd hmem hkv2
      rw [← huniq] at hkf
      rw [hrf2] at hkf
      exact Bool.false_ne_true hkf
    have hrhs : (if strictFalse r = true then (none : Option Plugin) else some p) = some p := by
      rw [hrf2]
      simp
    rw [hrhs]
    by_cases hne : (entriesToRemove results).isEmpty = true
    · rw [if_pos hne]
      dsimp only
      rw [hplug]
      exact hid
    · rw [if_neg hne]
      dsimp only
      rw [alGet_foldl_alDelete, if_neg hnotin, hplug]
      exact hid

/-! ### Lemmas about config-setup merging -/

theorem applyFieldsPart_defaults (cs : ConfigSetup) (frag : JSVal) :
    (applyFieldsPart cs frag).defaults = cs.defaults := by
  unfold applyFieldsPart
  split
  · split <;> rfl
  · rfl

theorem applyFieldsPart_secretKeys (cs : ConfigSetup) (frag : JSVal) :
    (applyFieldsPart cs frag).secretKeys = cs.secretKeys := by
  unfold applyFieldsPart
  split
  · split <;> rfl
  · rfl

theorem applyDefaultsPart_fields (cs : ConfigSetup) (frag : JSVal) :
    (applyDefaultsPart cs frag).fields = cs.fields := by
  unfold applyDefaultsPart
  split
  · split <;> rfl
  · rfl

theorem applyDefaultsPart_secretKeys (cs : ConfigSetup) (frag : JSVal) :
    (applyDefaultsPart cs frag).secretKeys = cs.secretKeys := by
  unfold applyDefaultsPart
  split
  · split <;> rfl
  · rfl

theorem applySecretKeysPart_fields (cs : ConfigSetup) (frag : JSVal) :
    (applySecretKeysPart cs frag).fields = cs.fields := by
  unfold applySecretKeysPart
  split
  · split <;> rfl
  · rfl

theorem applySecretKeysPart_defaults (cs : ConfigSetup) (frag : JSVal) :
    (applySecretKeysPart cs frag).defaults = cs.defaults := by
  unfold applySecretKeysPart
  split
  · split <;> rfl
  · rfl

theorem isEmpty_false_of_mem (l : List α) (x : α) (h : x ∈ l) : l.isEmpty = false := by
  cases hval : l.isEmpty
  · rfl
  · rw [List.isEmpty_iff.mp hval] at h
    exact absurd h (List.not_mem_nil _)

theorem isEmpty_false_of_alGet (o : List (String × α)) (k : String) (v : α)
    (h : alGet o k = some v) : o.isEmpty = false :=
  isEmpty_false_of_mem o (k, v) (mem_of_alGet o k v h)

theorem applyDefaultsPart_alGet (cs : ConfigSetup) (frag : JSVal)
    (k : String) (v : JSVal) (ds : List (String × JSVal))
    (hds : jsField frag "defaults" = JSVal.obj ds)
    (hnd : (alKeys ds).Nodup) (hv : alGet ds k = some v) :
    alGet (applyDefaultsPart cs frag).defaults k = some v := by
  unfold applyDefaultsPart
  rw [hds]
  dsimp only
  rw [if_neg (by rw [isEmpty_false_of_alGet ds k v hv]; simp)]
  exact alGet_alAssign_mem cs.defaults ds k v hnd hv

theorem applySecretKeysPart_mem_right (cs : ConfigSetup) (frag : JSVal)
    (x : JSVal) (sk : List JSVal)
    (hsk : jsField frag "secretKeys" = JSVal.arr sk) (hx : x ∈ sk) :
    x ∈ (applySecretKeysPart cs frag).secretKeys := by
  unfold applySecretKeysPart
  rw [hsk]
  dsimp only
  rw [if_neg (by rw [isEmpty_false_of_mem sk x hx]; simp)]
  exact List.mem_append_right _ hx

theorem applySecretKeysPart_mem_left (cs : ConfigSetup) (frag : JSVal)
    (x : JSVal) (hx : x ∈ cs.secretKeys) :
    x ∈ (applySecretKeysPart cs frag).secretKeys := by
  unfold applySecretKeysPart
  split
  · split
    · exact hx
    · exact List.mem_append_left _ hx
  · exact hx

theorem applyFieldsPart_alGet (cs : ConfigSetup) (frag : JSVal)
    (k : String) (v : JSVal) (fs : List (String × JSVal))
    (hfs : jsField frag "fields" = JSVal.obj fs)
    (hnd : (alKeys fs).Nodup) (hv : alGet fs k = some v) :
    alGet (applyFieldsPart cs frag).fields k = some v := by
  unfold applyFieldsPart
  rw [hfs]
  dsimp only
  rw [if_neg (by rw [isEmpty_false_of_alGet fs k v hv]; simp)]
  exact alGet_alAssign_mem cs.fields fs k v hnd hv

/-- C7: config-fragment merging is right-biased: when two fragments merged in
sequence both set the same `defaults` key (or the same `fields` key), the
later-merged fragment's value is the one held by the merged setup, and every
secret key of either fragment is present in the merged setup's secret-key
list (appended, duplicates tolerated). -/
theorem c7_merge_right_biased (s : ConfigSetup) (f1 f2 : JSVal) :
    (∀ (k : String) (v : JSVal) (ds2 : List (String × JSVal)),
        jsField f2 "defaults" = JSVal.obj ds2 → (alKeys ds2).Nodup → alGet ds2 k = some v →
          alGet (applyConfigSetup (applyConfigSetup s f1) f2).defaults k = some v)
      ∧ (∀ (k : String) (v : JSVal) (fs2 : List (String × JSVal)),
        jsField f2 "fields" = JSVal.obj fs2 → (alKeys fs2).Nodup → alGet fs2 k = some v →
          alGet (applyConfigSetup (applyConfigSetup s f1) f2).fields k = some v)
      ∧ (∀ (x : JSVal) (sk1 : List JSVal),
        jsField f1 "secretKeys" = JSVal.arr sk1 → x ∈ sk1 →
          x ∈ (applyConfigSetup (applyConfigSetup s f1) f2).secretKeys)
      ∧ (∀ (x : JSVal) (sk2 : List JSVal),
        jsField f2 "secretKeys" = JSVal.arr sk2 → x ∈ sk2 →
          x ∈ (applyConfigSetup (applyConfigSetup s f1) f2).secretKeys) := by
  refine ⟨?_, ?_, ?_, ?_⟩
  · intro k v ds2 hds hnd hv
    unfold applyConfigSetup
    rw [applySecretKeysPart_defaults]
    exact applyDefaultsPart_alGet _ f2 k v ds2 hds hnd hv
  · intro k v fs2 hfs hnd hv
    unfold applyConfigSetup
    rw [applySecretKeysPart_fields, applyDefaultsPart_fields]
    exact applyFieldsPart_alGet _ f2 k v fs2 hfs hnd hv
  · intro x sk1 hsk hx
    unfold applyConfigSetup
    apply applySecretKeysPart_mem_left
    rw [applyDefaultsPart_secretKeys, applyFieldsPart_secretKeys]
    exact applySecretKeysPart_mem_right _ f1 x sk1 hsk hx
  · intro x sk2 hsk hx
    unfold applyConfigSetup
    exact applySecretKeysPart_mem_right _ f2 x sk2 hsk hx

/-- A concrete first fragment for exercising the merge: default `x = 1`,
secret key `"a"`. -/
def mergeFragOne : JSVal :=
  JSVal.obj [("defaults", JSVal.obj [("x", JSVal.num 1)]),
             ("secretKeys", JSVal.arr [JSVal.str "a"])]

/-- A concrete second fragment: default `x = 2`, secret key `"b"`. -/
def mergeFragTwo : JSVal :=
  JSVal.obj [("defaults", JSVal.obj [("x", JSVal.num 2)]),
             ("secretKeys", JSVal.arr [JSVal.str "b"])]

theorem c7_merge_right_biased_witness :
    alGet (applyConfigSetup (applyConfigSetup {} mergeFragOne) mergeFragTwo).defaults "x"
        = some (JSVal.num 2)
      ∧ JSVal.str "a" ∈ (applyConfigSetup (applyConfigSetup {} mergeFragOne) mergeFragTwo).secretKeys
      ∧ JSVal.str "b" ∈ (applyConfigSetup (applyConfigSetup {} mergeFragOne) mergeFragTwo).secretKeys := by
  have h := c7_merge_right_biased {} mergeFragOne mergeFragTwo
  refine ⟨?_, ?_, ?_⟩
  · exact h.1 "x" (JSVal.num 2) [("x", JSVal.num 2)] rfl (by simp [alKeys]) rfl
  · exact h.2.2.1 (JSVal.str "a") [JSVal.str "a"] rfl (by simp)
  · exact h.2.2.2 (JSVal.str "b") [JSVal.str "b"] rfl (by simp)

theorem strictFalse_iff (r : JSVal) : strictFalse r = true ↔ r = JSVal.bool false := by
  cases r with
  | bool b => cases b <;> simp [strictFalse]
  | undef => simp [strictFalse]
  | null => simp [strictFalse]
  | num n => simp [strictFalse]
  | str s => simp [strictFalse]
  | arr l => simp [strictFalse]
  | obj o => simp [strictFalse]
  | ref t => simp [strictFalse]

theorem strictFalse_of_truthy (r : JSVal) (h : truthy r = true) : strictFalse r = false := by
  cases r with
  | bool b =>
    cases b
    · simp [truthy] at h
    · rfl
  | undef => rfl
  | null => rfl
  | num n => rfl
  | str s => rfl
  | arr l => rfl
  | obj o => rfl
  | ref t => rfl

/-- C5: for every removable hook call, a registered plugin whose hook result
resolved to exactly the boolean `false` is removed from the registry after
the call, and only then: a result of `undefined`, `0`, the empty string, or
any truthy value never causes removal (the plugin stays registered
untouched). -/
theorem c5_removal_iff_false (sched : Nat → List Nat) (st : CoreState) (m : String)
    (args : List JSVal) (results : List (String × JSVal)) (id : String) (p : Plugin)
    (r : JSVal)
    (hnd : (alKeys st.plugins).Nodup)
    (hc : st.unusedPluginEvents.contains m = false)
    (hok : (callPluginsS sched st m args).result = Except.ok results)
    (hid : alGet st.plugins id = some p)
    (hdef : memberDefined p m = true)
    (hrun : runMember (memberOf p m) args = Except.ok r) :
    (alGet (callAndRemovePlugins sched st m args).state.plugins id = none
        ↔ r = JSVal.bool false)
      ∧ ((r = JSVal.undef ∨ r = JSVal.num 0 ∨ r = JSVal.str "" ∨ truthy r = true) →
          alGet (callAndRemovePlugins sched st m args).state.plugins id = some p) := by
  have h := (callAndRemovePlugins_lookup sched st m args results id p r
    hnd hc hok hid hdef hrun).1
  constructor
  · constructor
    · intro hnone
      rw [h] at hnone
      by_cases hrf : strictFalse r = true
      · exact (strictFalse_iff r).mp hrf
      · rw [if_neg hrf] at hnone
        cases hnone
    · intro hfr
      rw [h, if_pos ((strictFalse_iff r).mpr hfr)]
  · intro hcase
    have hrf : strictFalse r = false := by
      rcases hcase with h1 | h1 | h1 | h1
      · rw [h1]; rfl
      · rw [h1]; rfl
      · rw [h1]; rfl
      · exact strictFalse_of_truthy r h1
    rw [h, if_neg (by rw [hrf]; simp)]

/-- A plugin whose `preInit` member is the plain value `false`. -/
def c5PluginFalse : Plugin :=
  { members := [("preInit", HookMember.val (JSVal.bool false))] }

/-- A plugin whose `preInit` member is the plain value `0`. -/
def c5PluginZero : Plugin :=
  { members := [("preInit", HookMember.val (JSVal.num 0))] }

/-- A two-plugin registry state for exercising the removal policy. -/
def c5State : CoreState :=
  { plugins := [("a", c5PluginFalse), ("b", c5PluginZero)] }

theorem c5_removal_iff_false_witness :
    alGet (callAndRemovePlugins (fun _ => [0, 1]) c5State "preInit" []).state.plugins "a" = none
      ∧ alGet (callAndRemovePlugins (fun _ => [0, 1]) c5State "preInit" []).state.plugins "b"
          = some c5PluginZero := by
  have ha := c5_removal_iff_false (fun _ => [0, 1]) c5State "preInit" []
    [("a", JSVal.bool false), ("b", JSVal.num 0)] "a" c5PluginFalse (JSVal.bool false)
    (by decide) rfl rfl rfl rfl rfl
  have hb := c5_removal_iff_false (fun _ => [0, 1]) c5State "preInit" []
    [("a", JSVal.bool false), ("b", JSVal.num 0)] "b" c5PluginZero (JSVal.num 0)
    (by decide) rfl rfl rfl rfl rfl
  exact ⟨ha.1.mpr rfl, hb.2 (Or.inr (Or.inl rfl))⟩

/-- C9: a plugin exposing a removable hook as a plain non-function property
is treated like one whose method returned that value: the property's value
appears directly as the plugin's result, and a property value of exactly
`false` removes the plugin from the registry just as a method returning
`false` would (any other property value leaves it registered). -/
theorem c9_value_member_removal (sched : Nat → List Nat) (st : CoreState) (m : String)
    (args : List JSVal) (results : List (String × JSVal)) (id : String) (p : Plugin)
    (v : JSVal)
    (hnd : (alKeys st.plugins).Nodup)
    (hc : st.unusedPluginEvents.contains m = false)
    (hok : (callPluginsS sched st m args).result = Except.ok results)
    (hid : alGet st.plugins id = some p)
    (hmem : memberOf p m = HookMember.val v)
    (hv : v ≠ JSVal.undef) :
    (id, v) ∈ results
      ∧ (alGet (callAndRemovePlugins sched st m args).state.plugins id = none
          ↔ v = JSVal.bool false) := by
  have hdef : memberDefined p m = true := by
    unfold memberDefined
    rw [hmem]
    cases v with
    | undef => exact absurd rfl hv
    | null => rfl
    | bool b => rfl
    | num n => rfl
    | str s => rfl
    | arr l => rfl
    | obj o => rfl
    | ref t => rfl
  have hrun : runMember (memberOf p m) args = Except.ok v := by
    rw [hmem]
    rfl
  have h := callAndRemovePlugins_lookup sched st m args results id p v
    hnd hc hok hid hdef hrun
  refine ⟨h.2, ?_, ?_⟩
  · intro hnone
    rw [h.1] at hnone
    by_cases hrf : strictFalse v = true
    · exact (strictFalse_iff v).mp hrf
    · rw [if_neg hrf] at hnone
      cases hnone
  · intro hfv
    rw [h.1, if_pos ((strictFalse_iff v).mpr hfv)]

/-- A plugin whose `init` member is the plain value `false` (a static
property, not a method). -/
def c9Plugin : Plugin :=
  { members := [("init", HookMember.val (JSVal.bool false))] }

/-- A one-plugin registry state whose only plugin self-removes via a static
`init` property. -/
def c9State : CoreState :=
  { plugins := [("s", c9Plugin)] }

theorem c9_value_member_removal_witness :
    ("s", JSVal.bool false) ∈ [("s", JSVal.bool false)]
      ∧ alGet (callAndRemovePlugins (fun _ => [0]) c9State "init" []).state.plugins "s"
          = none := by
  have h := c9_value_member_removal (fun _ => [0]) c9State "init" []
    [("s", JSVal.bool false)] "s" c9Plugin (JSVal.bool false)
    (by decide) rfl rfl rfl rfl (by intro hx; cases hx)
  exact ⟨h.1, h.2.mpr rfl⟩

/-- A plugin exposing a `ready` member. -/
def c3Plugin : Plugin :=
  { members := [("ready", HookMember.val (JSVal.num 1))] }

/-- A registry state whose unused-hook cache already records `ready` even
though the registered plugin defines it (in the source this arises because
`unusedPluginEvents` persists across calls while instances and the registry
may change between calls). -/
def c3State : CoreState :=
  { plugins := [("a", c3Plugin)], unusedPluginEvents := ["ready"] }

/-- C3 counterexample: with `ready` in the unused-hook cache, `callPlugins`
returns an empty result object even though plugin `a` defines `ready` at
call time, so the key set (empty) differs from the defined set (`a`): the
result is computed from the cached snapshot, not from the registry's state
at call time. -/
theorem c3_counterexample :
    (callPlugins c3State "ready" [] [0]).result = Except.ok []
      ∧ (definedEntries c3State "ready").map (fun kv => kv.1) = ["a"]
      ∧ (([] : List (String × JSVal)).map (fun kv => kv.1) ≠ ["a"]) := by
  refine ⟨rfl, rfl, by simp⟩

/-- C3 (amended): unless the hook name is in the invoker's unused-hook cache,
the key set of a successful `invoke(h, ...)` equals exactly the identifiers
of plugins whose instance defines `h` at call time; a cached hook name
short-circuits to an empty result object regardless of the registry. -/
theorem c3_keyset_matches_unless_cached (st : CoreState) (m : String) (args : List JSVal)
    (perm : List Nat) (results : List (String × JSVal)) (id : String)
    (hc : st.unusedPluginEvents.contains m = false)
    (hok : (callPlugins st m args perm).result = Except.ok results) :
    (id ∈ results.map (fun kv => kv.1)
        ↔ ∃ p, (id, p) ∈ st.plugins ∧ memberDefined p m = true)
      ∧ (∀ st2 : CoreState, st2.unusedPluginEvents.contains m = true →
          (callPlugins st2 m args perm).result = Except.ok []) := by
  constructor
  · rw [callPlugins_ok_keys st m args perm results hc hok]
    rw [applyPerm_mem perm ((definedEntries st m).map (fun kv => kv.1)) id]
    constructor
    · intro hin
      rcases List.mem_map.mp hin with ⟨kv, hkv, hkid⟩
      rcases List.mem_filter.mp hkv with ⟨hkp, hkd⟩
      refine ⟨kv.2, ?_, hkd⟩
      have hkv2 : kv = (id, kv.2) := Prod.ext hkid rfl
      rw [← hkv2]
      exact hkp
    · intro hex
      rcases hex with ⟨p, hp, hd⟩
      exact List.mem_map.mpr ⟨(id, p), List.mem_filter.mpr ⟨hp, hd⟩, rfl⟩
  · intro st2 hc2
    rw [callPlugins_cached st2 m args perm hc2]

/-- A plugin defining `ready` for the amended-C3 witness state. -/
def c3WPlugin : Plugin :=
  { members := [("ready", HookMember.val (JSVal.num 1))] }

/-- A fresh registry state (empty cache) with one plugin defining `ready`. -/
def c3WState : CoreState :=
  { plugins := [("a", c3WPlugin)] }

theorem c3_keyset_matches_unless_cached_witness :
    "a" ∈ ([("a", JSVal.num 1)] : List (String × JSVal)).map (fun kv => kv.1) := by
  have h := c3_keyset_matches_unless_cached c3WState "ready" [] [0]
    [("a", JSVal.num 1)] "a" rfl rfl
  exact h.1.mpr ⟨c3WPlugin, by simp [c3WState], rfl⟩

/-- First registered plugin for the key-order counterexample. -/
def c4PluginA : Plugin :=
  { members := [("ready", HookMember.val (JSVal.num 1))] }

/-- Second registered plugin for the key-order counterexample. -/
def c4PluginB : Plugin :=
  { members := [("ready", HookMember.val (JSVal.num 2))] }

/-- A registry with plugins `a` then `b`, both defining `ready`. -/
def c4State : CoreState :=
  { plugins := [("a", c4PluginA), ("b", c4PluginB)] }

/-- C4 counterexample: when plugin `b`'s concurrent call completes before
plugin `a`'s (completion schedule `[1, 0]`), the result object's keys come
out as `[b, a]` although registration order is `[a, b]`: the key order of
the result mapping is completion order, not registration order. -/
theorem c4_counterexample :
    (callPlugins c4State "ready" [] [1, 0]).result
        = Except.ok [("b", JSVal.num 2), ("a", JSVal.num 1)]
      ∧ (definedEntries c4State "ready").map (fun kv => kv.1) = ["a", "b"]
      ∧ ((["b", "a"] : List String) ≠ ["a", "b"]) := by
  refine ⟨rfl, rfl, by decide⟩

/-- C4 (amended): the key order of a successful result mapping equals the
completion order of the concurrent per-plugin calls (the order in which
`results[name] = await result` runs); when every call completes in start
order — in particular when all hooks are synchronous — this coincides with
the registration order of the qualifying plugins. -/
theorem c4_key_order_is_completion_order (st : CoreState) (m : String) (args : List JSVal)
    (perm : List Nat) (results : List (String × JSVal))
    (hc : st.unusedPluginEvents.contains m = false)
    (hok : (callPlugins st m args perm).result = Except.ok results) :
    results.map (fun kv => kv.1) = applyPerm perm ((definedEntries st m).map (fun kv => kv.1))
      ∧ (perm = List.range (definedEntries st m).length →
          results.map (fun kv => kv.1) = (definedEntries st m).map (fun kv => kv.1)) := by
  refine ⟨callPlugins_ok_keys st m args perm results hc hok, ?_⟩
  intro hperm
  rw [callPlugins_ok_keys st m args perm results hc hok, hperm]
  have hlen : (definedEntries st m).length = ((definedEntries st m).map (fun kv => kv.1)).length := by
    rw [List.length_map]
  rw [hlen, applyPerm_range]

/-- Registry for the amended-C4 witness: two plugins, synchronous schedule. -/
def c4WState : CoreState :=
  { plugins := [("a", c4PluginA), ("b", c4PluginB)] }

theorem c4_key_order_is_completion_order_witness :
    ([("a", JSVal.num 1), ("b", JSVal.num 2)] : List (String × JSVal)).map (fun kv => kv.1)
      = (definedEntries c4WState "ready").map (fun kv => kv.1) := by
  have h := c4_key_order_is_completion_order c4WState "ready" [] [0, 1]
    [("a", JSVal.num 1), ("b", JSVal.num 2)] rfl rfl
  exact h.2 rfl

theorem isManagedTrue_iff (v : JSVal) : isManagedTrue v = true ↔ v = JSVal.bool true := by
  cases v with
  | bool b => cases b <;> simp [isManagedTrue]
  | undef => simp [isManagedTrue]
  | null => simp [isManagedTrue]
  | num n => simp [isManagedTrue]
  | str s => simp [isManagedTrue]
  | arr l => simp [isManagedTrue]
  | obj o => simp [isManagedTrue]
  | ref t => simp [isManagedTrue]

theorem alGet_map_fst_preserved (l : List (String × α)) (g : String × α → String × β)
    (hg : ∀ kv, (g kv).1 = kv.1) (key : String) :
    alGet (l.map g) key = (alGet l key).map (fun v => (g (key, v)).2) := by
  induction l with
  | nil => rfl
  | cons kv rest ih =>
    rw [List.map_cons, alGet_cons, alGet_cons, hg kv]
    by_cases hk : (kv.1 == key)
    · have he : kv.1 = key := beq_iff_eq.mp hk
      have hkv : kv = (key, kv.2) := Prod.ext he rfl
      simp only [hk, if_true, Option.map_some]
      rw [hkv]
      rfl
    · simp only [hk, Bool.false_eq_true, if_neg, not_false_iff]
      exact ih

/-- C10: a plugin is treated as managed exactly when its
`isManagedByJaidCore` field is the boolean `true`.  Any other marker value
(absent/undefined, a truthy non-boolean such as `1`, `false`, ...) means the
orchestrator leaves the instance completely untouched during back-reference
injection and the diagnostic roster labels it self-managed; only the exact
boolean `true` receives the `core`/`logger` back-references and the
auto-managed roster label. -/
theorem c10_managed_marker_exact (st : CoreState) (id : String) (p : Plugin)
    (hid : alGet st.plugins id = some p) :
    (p.isManagedByJaidCore ≠ JSVal.bool true →
        alGet (doForManagedPluginsSync st).state.plugins id = some p
          ∧ formatPluginNameDetailed id p = id ++ " " ++ "(self-managed)")
      ∧ (p.isManagedByJaidCore = JSVal.bool true →
        alGet (doForManagedPluginsSync st).state.plugins id = some (injectBackRefs p)
          ∧ (injectBackRefs p).core = JSVal.ref "core"
          ∧ (injectBackRefs p).logger = JSVal.ref "logger"
          ∧ formatPluginNameDetailed id p = id ++ " " ++ "(auto-managed)") := by
  have hmap : alGet (doForManagedPluginsSync st).state.plugins id
      = (alGet st.plugins id).map
          (fun v => if isManagedTrue v.isManagedByJaidCore then injectBackRefs v else v) := by
    unfold doForManagedPluginsSync
    have := alGet_map_fst_preserved st.plugins
      (fun kv => if isManagedTrue kv.2.isManagedByJaidCore then (kv.1, injectBackRefs kv.2) else kv)
      (fun kv => by by_cases hb : isManagedTrue kv.2.isManagedByJaidCore = true <;> simp [hb]) id
    rw [this]
    cases alGet st.plugins id with
    | none => rfl
    | some v =>
      simp only [Option.map_some]
      by_cases hb : isManagedTrue v.isManagedByJaidCore = true <;> simp [hb]
  constructor
  · intro hne
    have hb : isManagedTrue p.isManagedByJaidCore = false := by
      cases hval : isManagedTrue p.isManagedByJaidCore
      · rfl
      · exact absurd ((isManagedTrue_iff _).mp hval) hne
    constructor
    · rw [hmap, hid]
      simp [hb]
    · unfold formatPluginNameDetailed formatPluginName
      rw [hb]
      simp
  · intro heq
    have hb : isManagedTrue p.isManagedByJaidCore = true := (isManagedTrue_iff _).mpr heq
    refine ⟨?_, rfl, rfl, ?_⟩
    · rw [hmap, hid]
      simp [hb]
    · unfold formatPluginNameDetailed formatPluginName
      rw [hb]
      simp

/-- A plugin carrying a truthy non-boolean marker (`isManagedByJaidCore = 1`). -/
def c10PluginNum : Plugin :=
  { isManagedByJaidCore := JSVal.num 1 }

/-- A plugin built from the recognized base class (marker exactly `true`). -/
def c10PluginManaged : Plugin :=
  { isManagedByJaidCore := JSVal.bool true }

/-- Registry with one truthy-non-boolean-marked and one managed plugin. -/
def c10State : CoreState :=
  { plugins := [("n", c10PluginNum), ("m", c10PluginManaged)] }

theorem c10_managed_marker_exact_witness :
    (alGet (doForManagedPluginsSync c10State).state.plugins "n" = some c10PluginNum
        ∧ formatPluginNameDetailed "n" c10PluginNum = "n" ++ " " ++ "(self-managed)")
      ∧ alGet (doForManagedPluginsSync c10State).state.plugins "m"
          = some (injectBackRefs c10PluginManaged) := by
  have hn := c10_managed_marker_exact c10State "n" c10PluginNum rfl
  have hm := c10_managed_marker_exact c10State "m" c10PluginManaged rfl
  exact ⟨hn.1 (by intro hx; cases hx), (hm.2 rfl).1⟩

/-! ### Stage-composition lemmas -/

theorem seqStep_ok (r : StepResult) (f : CoreState → StepResult)
    (h : r.outcome = Except.ok ()) :
    seqStep r f = ⟨(f r.state).state, r.events ++ (f r.state).events, (f r.state).outcome⟩ := by
  unfold seqStep
  rw [h]

theorem seqStep_error (r : StepResult) (f : CoreState → StepResult) (e : String)
    (h : r.outcome = Except.error e) : seqStep r f = r := by
  unfold seqStep
  rw [h]

theorem seqStep_cases (r : StepResult) (f : CoreState → StepResult) :
    seqStep r f = r
      ∨ seqStep r f
          = ⟨(f r.state).state, r.events ++ (f r.state).events, (f r.state).outcome⟩ := by
  cases h : r.outcome with
  | error e => exact Or.inl (seqStep_error r f e h)
  | ok u =>
    cases u
    exact Or.inr (seqStep_ok r f h)

/-- Transport a state observation through one composed stage, given that the
phase preserves it. -/
theorem seqStep_preserve {γ : Type} (r : StepResult) (g : CoreState → StepResult)
    (f : CoreState → γ) (hg : ∀ st, f (g st).state = f st) :
    f (seqStep r g).state = f r.state := by
  rcases seqStep_cases r g with h | h <;> rw [h]
  exact hg r.state

theorem callPlugins_handed (st : CoreState) (m : String) (args : List JSVal)
    (perm : List Nat) :
    (callPlugins st m args perm).state.handedConfigSetup = st.handedConfigSetup := by
  rcases callPlugins_state_eq st m args perm with h | h <;> rw [h]

theorem callPluginsS_configSetup (sched : Nat → List Nat) (st : CoreState) (m : String)
    (args : List JSVal) :
    (callPluginsS sched st m args).state.configSetup = st.configSetup :=
  callPlugins_configSetup { st with callCount := st.callCount + 1 } m args (sched st.callCount)

theorem callPluginsS_config (sched : Nat → List Nat) (st : CoreState) (m : String)
    (args : List JSVal) :
    (callPluginsS sched st m args).state.config = st.config :=
  callPlugins_config { st with callCount := st.callCount + 1 } m args (sched st.callCount)

theorem callPluginsS_handed (sched : Nat → List Nat) (st : CoreState) (m : String)
    (args : List JSVal) :
    (callPluginsS sched st m args).state.handedConfigSetup = st.handedConfigSetup :=
  callPlugins_handed { st with callCount := st.callCount + 1 } m args (sched st.callCount)

theorem callPluginsS_plugins (sched : Nat → List Nat) (st : CoreState) (m : String)
    (args : List JSVal) :
    (callPluginsS sched st m args).state.plugins = st.plugins :=
  callPlugins_plugins { st with callCount := st.callCount + 1 } m args (sched st.callCount)

theorem toStep_state (c : CallResult) : (toStep c).state = c.state := rfl

theorem removeStep_configSetup (m : String) (c : CallResult) :
    (removeStep m c).state.configSetup = c.state.configSetup := by
  unfold removeStep
  split
  · rfl
  · split <;> rfl

theorem removeStep_config (m : String) (c : CallResult) :
    (removeStep m c).state.config = c.state.config := by
  unfold removeStep
  split
  · rfl
  · split <;> rfl

theorem removeStep_handed (m : String) (c : CallResult) :
    (removeStep m c).state.handedConfigSetup = c.state.handedConfigSetup := by
  unfold removeStep
  split
  · rfl
  · split <;> rfl

theorem callAndRemovePlugins_configSetup (sched : Nat → List Nat) (st : CoreState)
    (m : String) (args : List JSVal) :
    (callAndRemovePlugins sched st m args).state.configSetup = st.configSetup := by
  unfold callAndRemovePlugins
  rw [removeStep_configSetup, callPluginsS_configSetup]

theorem callAndRemovePlugins_config (sched : Nat → List Nat) (st : CoreState)
    (m : String) (args : List JSVal) :
    (callAndRemovePlugins sched st m args).state.config = st.config := by
  unfold callAndRemovePlugins
  rw [removeStep_config, callPluginsS_config]

theorem callAndRemovePlugins_handed (sched : Nat → List Nat) (st : CoreState)
    (m : String) (args : List JSVal) :
    (callAndRemovePlugins sched st m args).state.handedConfigSetup
      = st.handedConfigSetup := by
  unfold callAndRemovePlugins
  rw [removeStep_handed, callPluginsS_handed]

theorem doForManagedPluginsSync_configSetup (st : CoreState) :
    (doForManagedPluginsSync st).state.configSetup = st.configSetup := rfl

theorem doForManagedPluginsSync_handed (st : CoreState) :
    (doForManagedPluginsSync st).state.handedConfigSetup = st.handedConfigSetup := rfl

theorem doForManagedPluginsSync_cache (st : CoreState) :
    (doForManagedPluginsSync st).state.unusedPluginEvents = st.unusedPluginEvents := rfl

theorem disabledStep_preserve {γ : Type} (f : CoreState → γ)
    (hf : ∀ st k, f { st with plugins := alDelete st.plugins k } = f st)
    (l : List JSVal) (a : CoreState × List Event × List String) :
    f (l.foldl disabledStep a).1 = f a.1 := by
  induction l generalizing a with
  | nil => rfl
  | cons v rest ih =>
    rw [List.foldl_cons, ih]
    unfold disabledStep
    by_cases hifs : (alGet a.1.plugins (jsKeyString v)).isSome = true
    · rw [if_pos hifs]
      exact hf a.1 (jsKeyString v)
    · rw [if_neg hifs]

theorem applyDisabledPlugins_configSetup (st : CoreState) :
    (applyDisabledPlugins st).state.configSetup = st.configSetup := by
  unfold applyDisabledPlugins
  split
  · exact disabledStep_preserve (fun st => st.configSetup) (fun st k => rfl) _ (st, [], [])
  · rfl

theorem applyDisabledPlugins_config (st : CoreState) :
    (applyDisabledPlugins st).state.config = st.config := by
  unfold applyDisabledPlugins
  split
  · exact disabledStep_preserve (fun st => st.config) (fun st k => rfl) _ (st, [], [])
  · rfl

theorem applyDisabledPlugins_handed (st : CoreState) :
    (applyDisabledPlugins st).state.handedConfigSetup = st.handedConfigSetup := by
  unfold applyDisabledPlugins
  split
  · exact disabledStep_preserve (fun st => st.handedConfigSetup) (fun st k => rfl) _ (st, [], [])
  · rfl

theorem applyDisabledPlugins_outcome (st : CoreState) :
    (applyDisabledPlugins st).outcome = Except.ok () := by
  unfold applyDisabledPlugins
  split <;> rfl

theorem seqStep_ok_of (r : StepResult) (f : CoreState → StepResult)
    (h : (seqStep r f).outcome = Except.ok ()) : r.outcome = Except.ok () := by
  cases ho : r.outcome with
  | error e =>
    rw [seqStep_error r f e ho] at h
    rw [ho] at h
    cases h
  | ok u =>
    cases u
    rfl

theorem gatherStep_ok (c : CallResult) (results : List (String × JSVal))
    (h : c.result = Except.ok results) :
    gatherStep c
      = ⟨{ c.state with
            configSetup := results.foldl (fun acc kv => applyConfigSetup acc kv.2)
              c.state.configSetup },
          c.events, Except.ok ()⟩ := by
  unfold gatherStep
  rw [h]

theorem initStage3_configSetup (o : Options) (sched : Nat → List Nat)
    (entries : List (String × Plugin)) :
    (initStage3 o sched entries).state.configSetup
      = applyConfigSetup (getConfigSetup o) o.configSetup := by
  have h3 : (initStage3 o sched entries).state.configSetup
      = (initStage2 o sched entries).state.configSetup :=
    seqStep_preserve _ _ (fun st => st.configSetup) (fun st => rfl)
  have h2 : (initStage2 o sched entries).state.configSetup
      = (initStage1 o entries).state.configSetup :=
    seqStep_preserve _ _ (fun st => st.configSetup)
      (fun st => callPluginsS_configSetup sched st "setCoreReference" [JSVal.ref "core"])
  rw [h3, h2]
  rfl

theorem initCatch_state (r : StepResult) : (initCatch r).state = r.state := by
  unfold initCatch
  cases ho : r.outcome <;> rfl

theorem initModel_state (o : Options) (sched : Nat → List Nat)
    (entries : List (String × Plugin)) (loaded : List (String × JSVal)) :
    (initModel o sched entries loaded).state = (initStage15 o sched entries loaded).state := by
  unfold initModel
  rw [initCatch_state]

theorem initModel_handed_eq_stage6 (o : Options) (sched : Nat → List Nat)
    (entries : List (String × Plugin)) (loaded : List (String × JSVal)) :
    (initModel o sched entries loaded).state.handedConfigSetup
      = (initStage6 o sched entries loaded).state.handedConfigSetup := by
  rw [initModel_state]
  have h15 : (initStage15 o sched entries loaded).state.handedConfigSetup
      = (initStage14 o sched entries loaded).state.handedConfigSetup :=
    seqStep_preserve _ _ (fun st => st.handedConfigSetup) (fun st => rfl)
  have h14 : (initStage14 o sched entries loaded).state.handedConfigSetup
      = (initStage13 o sched entries loaded).state.handedConfigSetup :=
    seqStep_preserve _ _ (fun st => st.handedConfigSetup)
      (fun st => callPluginsS_handed sched st "ready" [])
  have h13 : (initStage13 o sched entries loaded).state.handedConfigSetup
      = (initStage12 o sched entries loaded).state.handedConfigSetup :=
    seqStep_preserve _ _ (fun st => st.handedConfigSetup)
      (fun st => callAndRemovePlugins_handed sched st "postInit" [])
  have h12 : (initStage12 o sched entries loaded).state.handedConfigSetup
      = (initStage11 o sched entries loaded).state.handedConfigSetup :=
    seqStep_preserve _ _ (fun st => st.handedConfigSetup)
      (fun st => callAndRemovePlugins_handed sched st "init" [])
  have h11 : (initStage11 o sched entries loaded).state.handedConfigSetup
      = (initStage10 o sched entries loaded).state.handedConfigSetup :=
    seqStep_preserve _ _ (fun st => st.handedConfigSetup)
      (fun st => by
        by_cases hd : hasDatabase o = true
        · rw [if_pos hd]
          exact callPluginsS_handed sched st "collectModels" []
        · rw [if_neg hd])
  have h10 : (initStage10 o sched entries loaded).state.handedConfigSetup
      = (initStage9 o sched entries loaded).state.handedConfigSetup :=
    seqStep_preserve _ _ (fun st => st.handedConfigSetup)
      (fun st => by
        by_cases hg : o.useGot = true
        · rw [if_pos hg]
          exact callPluginsS_handed sched st "handleGot" [JSVal.ref "got"]
        · rw [if_neg hg])
  have h9 : (initStage9 o sched entries loaded).state.handedConfigSetup
      = (initStage8 o sched entries loaded).state.handedConfigSetup :=
    seqStep_preserve _ _ (fun st => st.handedConfigSetup)
      (fun st => by
        by_cases hs : hasServer o = true
        · rw [if_pos hs]
          exact callPluginsS_handed sched st "handleKoa" [JSVal.ref "koa"]
        · rw [if_neg hs])
  have h8 : (initStage8 o sched entries loaded).state.handedConfigSetup
      = (initStage7 o sched entries loaded).state.handedConfigSetup :=
    seqStep_preserve _ _ (fun st => st.handedConfigSetup)
      (fun st => callAndRemovePlugins_handed sched st "handleConfig" [JSVal.obj st.config])
  have h7 : (initStage7 o sched entries loaded).state.handedConfigSetup
      = (initStage6 o sched entries loaded).state.handedConfigSetup :=
    seqStep_preserve _ _ (fun st => st.handedConfigSetup)
      (fun st => applyDisabledPlugins_handed st)
  rw [h15, h14, h13, h12, h11, h10, h9, h8, h7]

/-- C1 (amended): the orchestrator merges the caller-supplied options-level
config overrides into the base setup BEFORE gathering the plugin fragments
(line 810 runs before line 830), so the setup handed to the external config
loader is the plugin fragments folded OVER the caller-merged base: when a
plugin fragment and the caller overrides set the same defaults key, the
plugin fragment's value wins; caller overrides only take precedence over
the orchestrator's own built-in defaults. -/
theorem c1_caller_overrides_merged_before_plugins (o : Options) (sched : Nat → List Nat)
    (entries : List (String × Plugin)) (loaded : List (String × JSVal))
    (results : List (String × JSVal))
    (hok : (callPluginsS sched (initStage3 o sched entries).state "getConfigSetup" []).result
        = Except.ok results)
    (hout5 : (initStage5 o sched entries).outcome = Except.ok ()) :
    (initModel o sched entries loaded).state.handedConfigSetup
        = some (results.foldl (fun acc kv => applyConfigSetup acc kv.2)
            (applyConfigSetup (getConfigSetup o) o.configSetup))
      ∧ (∀ (pid : String) (frag : JSVal) (k : String) (v : JSVal)
            (ds : List (String × JSVal)),
          results = [(pid, frag)] →
          jsField frag "defaults" = JSVal.obj ds → (alKeys ds).Nodup → alGet ds k = some v →
          ∃ s, (initModel o sched entries loaded).state.handedConfigSetup = some s
            ∧ alGet s.defaults k = some v) := by
  have hout4 : (initStage4 o sched entries).outcome = Except.ok () :=
    seqStep_ok_of _ _ hout5
  have hout3 : (initStage3 o sched entries).outcome = Except.ok () :=
    seqStep_ok_of _ _ hout4
  have h4eq := seqStep_ok (initStage3 o sched entries) (gatherConfigSetups sched) hout3
  have hg := gatherStep_ok
    (callPluginsS sched (initStage3 o sched entries).state "getConfigSetup" []) results hok
  have h4cs : (initStage4 o sched entries).state.configSetup
      = results.foldl (fun acc kv => applyConfigSetup acc kv.2)
          (applyConfigSetup (getConfigSetup o) o.configSetup) := by
    show (seqStep (initStage3 o sched entries) (gatherConfigSetups sched)).state.configSetup = _
    rw [h4eq]
    show (gatherConfigSetups sched (initStage3 o sched entries).state).state.configSetup = _
    unfold gatherConfigSetups
    rw [hg]
    show results.foldl (fun acc kv => applyConfigSetup acc kv.2)
        (callPluginsS sched (initStage3 o sched entries).state
          "getConfigSetup" []).state.configSetup = _
    rw [callPluginsS_configSetup, initStage3_configSetup]
  have h5cs : (initStage5 o sched entries).state.configSetup
      = (initStage4 o sched entries).state.configSetup :=
    seqStep_preserve _ _ (fun st => st.configSetup)
      (fun st => callAndRemovePlugins_configSetup sched st "preInit" [])
  have h6 := seqStep_ok (initStage5 o sched entries) (phaseLoadConfig loaded) hout5
  have h6handed : (initStage6 o sched entries loaded).state.handedConfigSetup
      = some ((initStage5 o sched entries).state.configSetup) := by
    show (seqStep (initStage5 o sched entries) (phaseLoadConfig loaded)).state.handedConfigSetup = _
    rw [h6]
    rfl
  have hmain : (initModel o sched entries loaded).state.handedConfigSetup
      = some (results.foldl (fun acc kv => applyConfigSetup acc kv.2)
          (applyConfigSetup (getConfigSetup o) o.configSetup)) := by
    rw [initModel_handed_eq_stage6, h6handed, h5cs, h4cs]
  refine ⟨hmain, ?_⟩
  intro pid frag k v ds hres hds hnd hv
  refine ⟨_, hmain, ?_⟩
  rw [hres]
  show alGet (applyConfigSetup (applyConfigSetup (getConfigSetup o) o.configSetup)
      frag).defaults k = some v
  unfold applyConfigSetup
  rw [applySecretKeysPart_defaults]
  exact applyDefaultsPart_alGet _ frag k v ds hds hnd hv

/-- The plugin-contributed fragment setting default `x = 2`. -/
def c1Frag : JSVal :=
  JSVal.obj [("defaults", JSVal.obj [("x", JSVal.num 2)])]

/-- Orchestrator options whose caller-supplied config override sets `x = 1`. -/
def c1Options : Options :=
  { configSetup := JSVal.obj [("defaults", JSVal.obj [("x", JSVal.num 1)])] }

/-- A plugin whose `getConfigSetup` contributes `c1Frag`. -/
def c1Plugin : Plugin :=
  { members := [("getConfigSetup", HookMember.val c1Frag)] }

/-- C1 counterexample: with the caller's options-level override setting
default `x = 1` and one registered plugin contributing default `x = 2`, the
setup handed to the external config loader holds the PLUGIN's value `2`,
not the caller's value `1`: caller overrides do not win over
plugin-contributed defaults. -/
theorem c1_counterexample :
    ((initModel c1Options (fun _ => [0]) [("p", c1Plugin)] []).state.handedConfigSetup.map
        (fun cs => alGet cs.defaults "x")) = some (some (JSVal.num 2))
      ∧ ((initModel c1Options (fun _ => [0]) [("p", c1Plugin)] []).state.handedConfigSetup.map
          (fun cs => alGet cs.defaults "x")) ≠ some (some (JSVal.num 1)) := by
  have key : ((initModel c1Options (fun _ => [0]) [("p", c1Plugin)] []).state.handedConfigSetup.map
      (fun cs => alGet cs.defaults "x")) = some (some (JSVal.num 2)) := rfl
  refine ⟨key, ?_⟩
  rw [key]
  intro h
  injection h with h1
  injection h1 with h2
  injection h2 with h3
  exact absurd h3 (by decide)

theorem c1_caller_overrides_merged_before_plugins_witness :
    ∃ s, (initModel c1Options (fun _ => [0]) [("p", c1Plugin)] []).state.handedConfigSetup
        = some s
      ∧ alGet s.defaults "x" = some (JSVal.num 2) := by
  have h := c1_caller_overrides_merged_before_plugins c1Options (fun _ => [0])
    [("p", c1Plugin)] [] [("p", c1Frag)] rfl rfl
  exact h.2 "p" c1Frag "x" (JSVal.num 2) [("x", JSVal.num 2)] rfl rfl (by decide) rfl

/-! ### Trace lemmas -/

theorem seqStep_events_mem (r : StepResult) (f : CoreState → StepResult) (ev : Event)
    (hev : ev ∈ (seqStep r f).events) :
    ev ∈ r.events ∨ ev ∈ (f r.state).events := by
  rcases seqStep_cases r f with h | h <;> rw [h] at hev
  · exact Or.inl hev
  · exact List.mem_append.mp hev

theorem phaseRegister_events (entries : List (String × Plugin)) (st : CoreState) (ev : Event)
    (hev : ev ∈ (phaseRegister entries st).events) : ev = Event.infoLog "roster" := by
  unfold phaseRegister at hev
  dsimp only at hev
  by_cases hemp : (entries.foldl (fun acc kv => alSet acc kv.1 kv.2)
      ([] : List (String × Plugin))).isEmpty = true
  · rw [if_pos hemp] at hev
    cases hev
  · rw [if_neg hemp] at hev
    rcases List.mem_singleton.mp hev with h
    exact h

theorem callPluginsS_events_mem (sched : Nat → List Nat) (st : CoreState) (m : String)
    (args : List JSVal) (ev : Event)
    (hev : ev ∈ (callPluginsS sched st m args).events) :
    (∃ q, ev = Event.hookInvoked m q) ∨ ev = Event.infoLog m :=
  callPlugins_events_mem { st with callCount := st.callCount + 1 } m args
    (sched st.callCount) ev hev

theorem doForManagedPluginsSync_events (st : CoreState) (ev : Event)
    (hev : ev ∈ (doForManagedPluginsSync st).events) :
    ∃ q, ev = Event.backRefsSet q := by
  unfold doForManagedPluginsSync at hev
  rcases List.mem_map.mp hev with ⟨kv, hkv, hh⟩
  exact ⟨kv.1, hh.symm⟩

theorem gatherStep_events (c : CallResult) : (gatherStep c).events = c.events := by
  unfold gatherStep
  cases h : c.result <;> rfl

theorem gatherConfigSetups_events_mem (sched : Nat → List Nat) (st : CoreState) (ev : Event)
    (hev : ev ∈ (gatherConfigSetups sched st).events) :
    (∃ q, ev = Event.hookInvoked "getConfigSetup" q) ∨ ev = Event.infoLog "getConfigSetup" := by
  unfold gatherConfigSetups at hev
  rw [gatherStep_events] at hev
  exact callPluginsS_events_mem sched st "getConfigSetup" [] ev hev

theorem removeStep_events_mem (m : String) (c : CallResult) (ev : Event)
    (hev : ev ∈ (removeStep m c).events) :
    ev ∈ c.events ∨ (∃ q, ev = Event.pluginRemoved m q) ∨ ev = Event.infoLog "removed" := by
  unfold removeStep at hev
  cases h : c.result with
  | error e =>
    rw [h] at hev
    exact Or.inl hev
  | ok results =>
    rw [h] at hev
    dsimp only at hev
    by_cases hemp : (entriesToRemove results).isEmpty = true
    · rw [if_pos hemp] at hev
      exact Or.inl hev
    · rw [if_neg hemp] at hev
      rcases List.mem_append.mp hev with h1 | h2
      · rcases List.mem_append.mp h1 with h3 | h4
        · exact Or.inl h3
        · rcases List.mem_map.mp h4 with ⟨kv, hkv, hh⟩
          exact Or.inr (Or.inl ⟨kv.1, hh.symm⟩)
      · exact Or.inr (Or.inr (List.mem_singleton.mp h2))

theorem callAndRemovePlugins_events_mem (sched : Nat → List Nat) (st : CoreState)
    (m : String) (args : List JSVal) (ev : Event)
    (hev : ev ∈ (callAndRemovePlugins sched st m args).events) :
    (∃ q, ev = Event.hookInvoked m q) ∨ ev = Event.infoLog m
      ∨ (∃ q, ev = Event.pluginRemoved m q) ∨ ev = Event.infoLog "removed" := by
  unfold callAndRemovePlugins at hev
  rcases removeStep_events_mem m _ ev hev with h1 | h2 | h3
  · rcases callPluginsS_events_mem sched st m args ev h1 with h4 | h5
    · exact Or.inl h4
    · exact Or.inr (Or.inl h5)
  · exact Or.inr (Or.inr (Or.inl h2))
  · exact Or.inr (Or.inr (Or.inr h3))

theorem disabledFoldl_events_mem (l : List JSVal) (a : CoreState × List Event × List String)
    (ev : Event) (hev : ev ∈ (l.foldl disabledStep a).2.1) :
    ev ∈ a.2.1 ∨ (∃ q, ev = Event.pluginDisabled q) ∨ ∃ q, ev = Event.warnUnknownDisabled q := by
  induction l generalizing a with
  | nil => exact Or.inl hev
  | cons v rest ih =>
    rw [List.foldl_cons] at hev
    rcases ih (disabledStep a v) hev with h1 | h2
    · unfold disabledStep at h1
      by_cases hifs : (alGet a.1.plugins (jsKeyString v)).isSome = true
      · rw [if_pos hifs] at h1
        rcases List.mem_append.mp h1 with h3 | h4
        · exact Or.inl h3
        · exact Or.inr (Or.inl ⟨jsKeyString v, List.mem_singleton.mp h4⟩)
      · rw [if_neg hifs] at h1
        rcases List.mem_append.mp h1 with h3 | h4
        · exact Or.inl h3
        · exact Or.inr (Or.inr ⟨jsKeyString v, List.mem_singleton.mp h4⟩)
    · exact Or.inr h2

theorem applyDisabledPlugins_events_mem (st : CoreState) (ev : Event)
    (hev : ev ∈ (applyDisabledPlugins st).events) :
    (∃ q, ev = Event.pluginDisabled q) ∨ (∃ q, ev = Event.warnUnknownDisabled q)
      ∨ ev = Event.infoLog "disabled" := by
  unfold applyDisabledPlugins at hev
  by_cases hc : hasContent ((alGet st.config "disabledPlugins").getD JSVal.undef) = true
  · rw [if_pos hc] at hev
    rcases List.mem_append.mp hev with h1 | h2
    · rcases disabledFoldl_events_mem _ _ ev h1 with h3 | h4 | h5
      · cases h3
      · exact Or.inl h4
      · exact Or.inr (Or.inl h5)
    · by_cases hemp : (disabledFold st).2.2.isEmpty = true
      · rw [if_pos hemp] at h2
        cases h2
      · rw [if_neg hemp] at h2
        exact Or.inr (Or.inr (List.mem_singleton.mp h2))
  · rw [if_neg hc] at hev
    cases hev

/-- Events whose hook invocations are restricted to a given set of hook
names, and which are never the error log. -/
def traceEvOK (hooks : List String) (ev : Event) : Prop :=
  ev ≠ Event.errorLogged ∧ ∀ h q, ev = Event.hookInvoked h q → h ∈ hooks

theorem traceEvOK_infoLog (hooks : List String) (t : String) :
    traceEvOK hooks (Event.infoLog t) := by
  refine ⟨by simp, ?_⟩
  intro h q hq
  cases hq

theorem traceEvOK_hook (hooks : List String) (h q : String) (hm : h ∈ hooks) :
    traceEvOK hooks (Event.hookInvoked h q) := by
  refine ⟨by simp, ?_⟩
  intro h2 q2 hq
  injection hq with e1 e2
  rw [← e1]
  exact hm

theorem traceEvOK_backRefs (hooks : List String) (q : String) :
    traceEvOK hooks (Event.backRefsSet q) := by
  refine ⟨by simp, ?_⟩
  intro h2 q2 hq
  cases hq

theorem traceEvOK_removed (hooks : List String) (m q : String) :
    traceEvOK hooks (Event.pluginRemoved m q) := by
  refine ⟨by simp, ?_⟩
  intro h2 q2 hq
  cases hq

theorem traceEvOK_disabled (hooks : List String) (q : String) :
    traceEvOK hooks (Event.pluginDisabled q) := by
  refine ⟨by simp, ?_⟩
  intro h2 q2 hq
  cases hq

theorem traceEvOK_warn (hooks : List String) (q : String) :
    traceEvOK hooks (Event.warnUnknownDisabled q) := by
  refine ⟨by simp, ?_⟩
  intro h2 q2 hq
  cases hq

theorem traceEvOK_call (hooks : List String) (sched : Nat → List Nat) (st : CoreState)
    (m : String) (args : List JSVal) (ev : Event) (hm : m ∈ hooks)
    (hev : ev ∈ (callPluginsS sched st m args).events) : traceEvOK hooks ev := by
  rcases callPluginsS_events_mem sched st m args ev hev with ⟨q, rfl⟩ | rfl
  · exact traceEvOK_hook hooks m q hm
  · exact traceEvOK_infoLog hooks m

theorem traceEvOK_callAndRemove (hooks : List String) (sched : Nat → List Nat)
    (st : CoreState) (m : String) (args : List JSVal) (ev : Event) (hm : m ∈ hooks)
    (hev : ev ∈ (callAndRemovePlugins sched st m args).events) : traceEvOK hooks ev := by
  rcases callAndRemovePlugins_events_mem sched st m args ev hev with ⟨q, rfl⟩ | rfl | ⟨q, rfl⟩ | rfl
  · exact traceEvOK_hook hooks m q hm
  · exact traceEvOK_infoLog hooks m
  · exact traceEvOK_removed hooks m q
  · exact traceEvOK_infoLog hooks "removed"

/-- The hook names dispatched before the `init` hook call of line 1024. -/
def hooksBeforeInit : List String :=
  ["setCoreReference", "getConfigSetup", "preInit", "handleConfig",
   "handleKoa", "handleGot", "collectModels"]

theorem initStage11_events (o : Options) (sched : Nat → List Nat)
    (entries : List (String × Plugin)) (loaded : List (String × JSVal)) (ev : Event)
    (hev : ev ∈ (initStage11 o sched entries loaded).events) :
    traceEvOK hooksBeforeInit ev := by
  rcases seqStep_events_mem _ _ ev hev with hev | hev
  · rcases seqStep_events_mem _ _ ev hev with hev | hev
    · rcases seqStep_events_mem _ _ ev hev with hev | hev
      · rcases seqStep_events_mem _ _ ev hev with hev | hev
        · rcases seqStep_events_mem _ _ ev hev with hev | hev
          · rcases seqStep_events_mem _ _ ev hev with hev | hev
            · rcases seqStep_events_mem _ _ ev hev with hev | hev
              · rcases seqStep_events_mem _ _ ev hev with hev | hev
                · rcases seqStep_events_mem _ _ ev hev with hev | hev
                  · rcases seqStep_events_mem _ _ ev hev with hev | hev
                    · rcases seqStep_events_mem _ _ ev hev with hev | hev
                      · cases hev
                      · rw [phaseRegister_events entries _ ev hev]
                        exact traceEvOK_infoLog _ "roster"
                    · exact traceEvOK_call _ sched _ "setCoreReference" _ ev (by simp [hooksBeforeInit]) hev
                  · rcases doForManagedPluginsSync_events _ ev hev with ⟨q, rfl⟩
                    exact traceEvOK_backRefs _ q
                · rcases gatherConfigSetups_events_mem sched _ ev hev with ⟨q, rfl⟩ | rfl
                  · exact traceEvOK_hook _ "getConfigSetup" q (by simp [hooksBeforeInit])
                  · exact traceEvOK_infoLog _ "getConfigSetup"
              · exact traceEvOK_callAndRemove _ sched _ "preInit" _ ev (by simp [hooksBeforeInit]) hev
            · cases hev
          · exact applyDisabledPlugins_events_mem _ ev hev |>.elim
              (fun ⟨q, hq⟩ => hq ▸ traceEvOK_disabled _ q)
              (fun h2 => h2.elim
                (fun ⟨q, hq⟩ => hq ▸ traceEvOK_warn _ q)
                (fun hq => hq ▸ traceEvOK_infoLog _ "disabled"))
        · exact traceEvOK_callAndRemove _ sched _ "handleConfig" _ ev (by simp [hooksBeforeInit]) hev
      · by_cases hs : hasServer o = true
        · rw [if_pos hs] at hev
          exact traceEvOK_call _ sched _ "handleKoa" _ ev (by simp [hooksBeforeInit]) hev
        · rw [if_neg hs] at hev
          cases hev
    · by_cases hg : o.useGot = true
      · rw [if_pos hg] at hev
        exact traceEvOK_call _ sched _ "handleGot" _ ev (by simp [hooksBeforeInit]) hev
      · rw [if_neg hg] at hev
        cases hev
  · by_cases hd : hasDatabase o = true
    · rw [if_pos hd] at hev
      exact traceEvOK_call _ sched _ "collectModels" _ ev (by simp [hooksBeforeInit]) hev
    · rw [if_neg hd] at hev
      cases hev

theorem initCatch_error (r : StepResult) (e : String) (h : r.outcome = Except.error e) :
    initCatch r = ⟨r.state, r.events ++ [Event.errorLogged], Except.error e⟩ := by
  unfold initCatch
  rw [h]

theorem initStage15_no_errorLogged (o : Options) (sched : Nat → List Nat)
    (entries : List (String × Plugin)) (loaded : List (String × JSVal)) (ev : Event)
    (hev : ev ∈ (initStage15 o sched entries loaded).events) : ev ≠ Event.errorLogged := by
  rcases seqStep_events_mem _ _ ev hev with hev | hev
  · rcases seqStep_events_mem _ _ ev hev with hev | hev
    · rcases seqStep_events_mem _ _ ev hev with hev | hev
      · rcases seqStep_events_mem _ _ ev hev with hev | hev
        · exact (initStage11_events o sched entries loaded ev hev).1
        · exact (traceEvOK_callAndRemove ["init"] sched _ "init" [] ev (by simp) hev).1
      · exact (traceEvOK_callAndRemove ["postInit"] sched _ "postInit" [] ev (by simp) hev).1
    · exact (traceEvOK_call ["ready"] sched _ "ready" [] ev (by simp) hev).1
  · rw [List.mem_singleton.mp hev]
    simp

/-- C6: a plugin hook exception is not caught per-plugin: it propagates
through the hook invocation and aborts the whole lifecycle sequence, which
logs exactly one error line (as the final trace event) and re-throws the
same error to the caller of `init`; in particular, when the `init` hook
call rejects, no `postInit` and no `ready` hook is invoked on any plugin. -/
theorem c6_hook_error_aborts (o : Options) (sched : Nat → List Nat)
    (entries : List (String × Plugin)) (loaded : List (String × JSVal)) :
    (∀ e : String, (initStage15 o sched entries loaded).outcome = Except.error e →
        (initModel o sched entries loaded).outcome = Except.error e
          ∧ ∃ pre, (initModel o sched entries loaded).events = pre ++ [Event.errorLogged]
              ∧ Event.errorLogged ∉ pre)
      ∧ (∀ e : String, (initStage11 o sched entries loaded).outcome = Except.ok () →
          (callAndRemovePlugins sched (initStage11 o sched entries loaded).state
              "init" []).outcome = Except.error e →
          (initModel o sched entries loaded).outcome = Except.error e
            ∧ (∀ q, Event.hookInvoked "postInit" q ∉ (initModel o sched entries loaded).events)
            ∧ (∀ q, Event.hookInvoked "ready" q ∉ (initModel o sched entries loaded).events)) := by
  constructor
  · intro e h15
    have heq := initCatch_error (initStage15 o sched entries loaded) e h15
    constructor
    · show (initCatch (initStage15 o sched entries loaded)).outcome = Except.error e
      rw [heq]
    · refine ⟨(initStage15 o sched entries loaded).events, ?_, ?_⟩
      · show (initCatch (initStage15 o sched entries loaded)).events = _
        rw [heq]
      · intro hmem
        exact (initStage15_no_errorLogged o sched entries loaded _ hmem) rfl
  · intro e h11ok hiniterr
    have h12 := seqStep_ok (initStage11 o sched entries loaded)
      (fun st => callAndRemovePlugins sched st "init" []) h11ok
    have h12out : (initStage12 o sched entries loaded).outcome = Except.error e := by
      show (seqStep (initStage11 o sched entries loaded)
        (fun st => callAndRemovePlugins sched st "init" [])).outcome = _
      rw [h12]
      exact hiniterr
    have h13 : initStage13 o sched entries loaded = initStage12 o sched entries loaded :=
      seqStep_error _ _ e h12out
    have h14 : initStage14 o sched entries loaded = initStage13 o sched entries loaded :=
      seqStep_error _ _ e (by rw [h13]; exact h12out)
    have h15 : initStage15 o sched entries loaded = initStage14 o sched entries loaded :=
      seqStep_error _ _ e (by rw [h14, h13]; exact h12out)
    have h15out : (initStage15 o sched entries loaded).outcome = Except.error e := by
      rw [h15, h14, h13]
      exact h12out
    have heq := initCatch_error (initStage15 o sched entries loaded) e h15out
    have hevents : (initModel o sched entries loaded).events
        = ((initStage11 o sched entries loaded).events
            ++ (callAndRemovePlugins sched (initStage11 o sched entries loaded).state
                "init" []).events)
          ++ [Event.errorLogged] := by
      show (initCatch (initStage15 o sched entries loaded)).events = _
      rw [heq, h15, h14, h13]
      show ((seqStep (initStage11 o sched entries loaded)
        (fun st => callAndRemovePlugins sched st "init" [])).events) ++ _ = _
      rw [h12]
    refine ⟨?_, ?_, ?_⟩
    · show (initCatch (initStage15 o sched entries loaded)).outcome = Except.error e
      rw [heq]
    · intro q hmem
      rw [hevents] at hmem
      rcases List.mem_append.mp hmem with h1 | h2
      · rcases List.mem_append.mp h1 with h3 | h4
        · have hbad := (initStage11_events o sched entries loaded _ h3).2 "postInit" q rfl
          exact absurd hbad (by decide)
        · have hbad := (traceEvOK_callAndRemove ["init"] sched _ "init" [] _
            (by simp) h4).2 "postInit" q rfl
          exact absurd hbad (by decide)
      · rcases List.mem_singleton.mp h2 with h5
        cases h5
    · intro q hmem
      rw [hevents] at hmem
      rcases List.mem_append.mp hmem with h1 | h2
      · rcases List.mem_append.mp h1 with h3 | h4
        · have hbad := (initStage11_events o sched entries loaded _ h3).2 "ready" q rfl
          exact absurd hbad (by decide)
        · have hbad := (traceEvOK_callAndRemove ["init"] sched _ "init" [] _
            (by simp) h4).2 "ready" q rfl
          exact absurd hbad (by decide)
      · rcases List.mem_singleton.mp h2 with h5
        cases h5

/-- A plugin whose `init` hook rejects with the error `"boom"`. -/
def c6Plugin : Plugin :=
  { members := [("init", HookMember.fn (fun _ => Except.error "boom"))] }

theorem c6_hook_error_aborts_witness :
    (initModel {} (fun _ => [0]) [("p", c6Plugin)] []).outcome = Except.error "boom"
      ∧ Event.hookInvoked "postInit" "p"
          ∉ (initModel {} (fun _ => [0]) [("p", c6Plugin)] []).events := by
  have h := (c6_hook_error_aborts {} (fun _ => [0]) [("p", c6Plugin)] []).2 "boom" rfl rfl
  exact ⟨h.1, h.2.1 "p"⟩

/-! ### Splitting a trace at a marker event -/

theorem mem_split_left {α : Type} (A B pre post : List α) (x : α) (hx : x ∉ B)
    (h : A ++ B = pre ++ x :: post) : ∃ post2, A = pre ++ x :: post2 := by
  rcases List.append_eq_append_iff.mp h with ⟨a2, h1, h2⟩ | ⟨c2, h1, h2⟩
  · have hxb : x ∈ B := by
      rw [h2]
      exact List.mem_append_right _ (List.mem_cons_self _ _)
    exact absurd hxb hx
  · cases c2 with
    | nil =>
      have hxb : x ∈ B := by
        have hb : x :: post = B := h2
        rw [← hb]
        exact List.mem_cons_self _ _
      exact absurd hxb hx
    | cons y t =>
      cases h2
      exact ⟨t, h1⟩

theorem append_split_cases {α : Type} (A B pre post : List α) (x : α)
    (h : A ++ B = pre ++ x :: post) :
    (∃ post2, A = pre ++ x :: post2)
      ∨ (∃ pre2, pre = A ++ pre2 ∧ B = pre2 ++ x :: post) := by
  rcases List.append_eq_append_iff.mp h with ⟨a2, h1, h2⟩ | ⟨c2, h1, h2⟩
  · exact Or.inr ⟨a2, h1, h2⟩
  · cases c2 with
    | nil =>
      have ha : A = pre := by
        rw [h1, List.append_nil]
      have hb : B = [] ++ x :: post := h2.symm
      exact Or.inr ⟨[], by rw [ha, List.append_nil], hb⟩
    | cons y t =>
      cases h2
      exact Or.inl ⟨t, h1⟩

/-- Peel one composed stage off a trace split: if the phase cannot have
produced the marker event, the split lies in the earlier trace. -/
theorem seqStep_split_no_marker (r : StepResult) (f : CoreState → StepResult) (x : Event)
    (pre post : List Event) (hx : ∀ st, x ∉ (f st).events)
    (h : (seqStep r f).events = pre ++ x :: post) :
    ∃ post2, r.events = pre ++ x :: post2 := by
  rcases seqStep_cases r f with he | he
  · rw [he] at h
    exact ⟨post, h⟩
  · rw [he] at h
    exact mem_split_left _ _ pre post x (hx r.state) h

theorem initCatch_split (r : StepResult) (x : Event) (pre post : List Event)
    (hx : x ≠ Event.errorLogged)
    (h : (initCatch r).events = pre ++ x :: post) :
    ∃ post2, r.events = pre ++ x :: post2 := by
  unfold initCatch at h
  cases ho : r.outcome with
  | ok u =>
    rw [ho] at h
    exact ⟨post, h⟩
  | error e =>
    rw [ho] at h
    dsimp only at h
    refine mem_split_left _ _ pre post x ?_ h
    intro hmem
    exact hx (List.mem_singleton.mp hmem)

theorem no_backRefsSet_in_call (sched : Nat → List Nat) (st : CoreState) (m : String)
    (args : List JSVal) (p : String) :
    Event.backRefsSet p ∉ (callPluginsS sched st m args).events := by
  intro hmem
  rcases callPluginsS_events_mem sched st m args _ hmem with ⟨q, hq⟩ | hq <;> cases hq

theorem no_backRefsSet_in_car (sched : Nat → List Nat) (st : CoreState) (m : String)
    (args : List JSVal) (p : String) :
    Event.backRefsSet p ∉ (callAndRemovePlugins sched st m args).events := by
  intro hmem
  rcases callAndRemovePlugins_events_mem sched st m args _ hmem with ⟨q, hq⟩ | hq | ⟨q, hq⟩ | hq
    <;> cases hq

theorem no_backRefsSet_in_disabled (st : CoreState) (p : String) :
    Event.backRefsSet p ∉ (applyDisabledPlugins st).events := by
  intro hmem
  rcases applyDisabledPlugins_events_mem st _ hmem with ⟨q, hq⟩ | ⟨q, hq⟩ | hq <;> cases hq

theorem no_backRefsSet_in_gather (sched : Nat → List Nat) (st : CoreState) (p : String) :
    Event.backRefsSet p ∉ (gatherConfigSetups sched st).events := by
  intro hmem
  rcases gatherConfigSetups_events_mem sched st _ hmem with ⟨q, hq⟩ | hq <;> cases hq

theorem no_disabled_in_call (sched : Nat → List Nat) (st : CoreState) (m : String)
    (args : List JSVal) (p : String) :
    Event.pluginDisabled p ∉ (callPluginsS sched st m args).events := by
  intro hmem
  rcases callPluginsS_events_mem sched st m args _ hmem with ⟨q, hq⟩ | hq <;> cases hq

theorem no_disabled_in_car (sched : Nat → List Nat) (st : CoreState) (m : String)
    (args : List JSVal) (p : String) :
    Event.pluginDisabled p ∉ (callAndRemovePlugins sched st m args).events := by
  intro hmem
  rcases callAndRemovePlugins_events_mem sched st m args _ hmem with ⟨q, hq⟩ | hq | ⟨q, hq⟩ | hq
    <;> cases hq

/-- Events of the initialization prefix up to and including the
`setCoreReference` call (stages 0-2): the roster line and the
`setCoreReference` dispatch only. -/
theorem initStage2_events (o : Options) (sched : Nat → List Nat)
    (entries : List (String × Plugin)) (ev : Event)
    (hev : ev ∈ (initStage2 o sched entries).events) :
    ev = Event.infoLog "roster"
      ∨ (∃ q, ev = Event.hookInvoked "setCoreReference" q)
      ∨ ev = Event.infoLog "setCoreReference" := by
  rcases seqStep_events_mem _ _ ev hev with hev | hev
  · rcases seqStep_events_mem _ _ ev hev with hev | hev
    · cases hev
    · exact Or.inl (phaseRegister_events entries _ ev hev)
  · rcases callPluginsS_events_mem sched _ "setCoreReference" _ ev hev with ⟨q, hq⟩ | hq
    · exact Or.inr (Or.inl ⟨q, hq⟩)
    · exact Or.inr (Or.inr hq)

/-- Events of the initialization prefix up to and including the config load
(stages 0-6): roster, `setCoreReference`, back-reference injections,
`getConfigSetup`, and the removable `preInit` call. -/
theorem initStage6_events (o : Options) (sched : Nat → List Nat)
    (entries : List (String × Plugin)) (loaded : List (String × JSVal)) (ev : Event)
    (hev : ev ∈ (initStage6 o sched entries loaded).events) :
    ev = Event.infoLog "roster"
      ∨ (∃ q, ev = Event.hookInvoked "setCoreReference" q)
      ∨ ev = Event.infoLog "setCoreReference"
      ∨ (∃ q, ev = Event.backRefsSet q)
      ∨ (∃ q, ev = Event.hookInvoked "getConfigSetup" q)
      ∨ ev = Event.infoLog "getConfigSetup"
      ∨ (∃ q, ev = Event.hookInvoked "preInit" q)
      ∨ ev = Event.infoLog "preInit"
      ∨ (∃ q, ev = Event.pluginRemoved "preInit" q)
      ∨ ev = Event.infoLog "removed" := by
  rcases seqStep_events_mem _ _ ev hev with hev | hev
  · rcases seqStep_events_mem _ _ ev hev with hev | hev
    · rcases seqStep_events_mem _ _ ev hev with hev | hev
      · rcases seqStep_events_mem _ _ ev hev with hev | hev
        · rcases initStage2_events o sched entries ev hev with h1 | h1 | h1
          · exact Or.inl h1
          · exact Or.inr (Or.inl h1)
          · exact Or.inr (Or.inr (Or.inl h1))
        · rcases doForManagedPluginsSync_events _ ev hev with ⟨q, hq⟩
          exact Or.inr (Or.inr (Or.inr (Or.inl ⟨q, hq⟩)))
      · rcases gatherConfigSetups_events_mem sched _ ev hev with ⟨q, hq⟩ | hq
        · exact Or.inr (Or.inr (Or.inr (Or.inr (Or.inl ⟨q, hq⟩))))
        · exact Or.inr (Or.inr (Or.inr (Or.inr (Or.inr (Or.inl hq)))))
    · rcases callAndRemovePlugins_events_mem sched _ "preInit" _ ev hev with
        ⟨q, hq⟩ | hq | ⟨q, hq⟩ | hq
      · exact Or.inr (Or.inr (Or.inr (Or.inr (Or.inr (Or.inr (Or.inl ⟨q, hq⟩))))))
      · exact Or.inr (Or.inr (Or.inr (Or.inr (Or.inr (Or.inr (Or.inr (Or.inl hq)))))))
      · exact Or.inr (Or.inr (Or.inr (Or.inr (Or.inr (Or.inr (Or.inr (Or.inr (Or.inl ⟨q, hq⟩))))))))
      · exact Or.inr (Or.inr (Or.inr (Or.inr (Or.inr (Or.inr (Or.inr (Or.inr (Or.inr hq))))))))
  · cases hev

theorem doForManagedPluginsSync_alGet (st : CoreState) (id : String) :
    alGet (doForManagedPluginsSync st).state.plugins id
      = (alGet st.plugins id).map
          (fun v => if isManagedTrue v.isManagedByJaidCore then injectBackRefs v else v) := by
  unfold doForManagedPluginsSync
  have hmap := alGet_map_fst_preserved st.plugins
    (fun kv => if isManagedTrue kv.2.isManagedByJaidCore then (kv.1, injectBackRefs kv.2) else kv)
    (fun kv => by by_cases hb : isManagedTrue kv.2.isManagedByJaidCore = true <;> simp [hb]) id
  rw [hmap]
  cases alGet st.plugins id with
  | none => rfl
  | some v =>
    simp only [Option.map_some]
    by_cases hb : isManagedTrue v.isManagedByJaidCore = true <;> simp [hb]

/-- C2 (amended): the managed-trait back-references are injected right after
the unconditional `setCoreReference` dispatch and before every other hook:
in any run of `init`, a hook invocation occurring in the trace before a
back-reference injection can only be `setCoreReference` (it is invoked on
line 825, before the injection of lines 826-829).  Every plugin whose
marker is exactly `true` then carries both back-references (`core` and
`logger`), while a plugin without the marker is left untouched. -/
theorem c2_backrefs_after_setcorereference (o : Options) (sched : Nat → List Nat)
    (entries : List (String × Plugin)) (loaded : List (String × JSVal)) :
    (∀ (pre post : List Event) (p : String),
        (initModel o sched entries loaded).events = pre ++ Event.backRefsSet p :: post →
        ∀ hk q, Event.hookInvoked hk q ∈ pre → hk = "setCoreReference")
      ∧ ((initStage2 o sched entries).outcome = Except.ok () →
        ∀ id p, alGet (initStage2 o sched entries).state.plugins id = some p →
          (isManagedTrue p.isManagedByJaidCore = true →
              alGet (initStage3 o sched entries).state.plugins id = some (injectBackRefs p)
                ∧ (injectBackRefs p).core = JSVal.ref "core"
                ∧ (injectBackRefs p).logger = JSVal.ref "logger")
            ∧ (isManagedTrue p.isManagedByJaidCore = false →
              alGet (initStage3 o sched entries).state.plugins id = some p)) := by
  constructor
  · intro pre post p hsplit hk q hmem
    have hs15 := initCatch_split (initStage15 o sched entries loaded)
      (Event.backRefsSet p) pre post (by simp) hsplit
    rcases hs15 with ⟨p15, hs15⟩
    have hs14 := seqStep_split_no_marker (initStage14 o sched entries loaded) _
      (Event.backRefsSet p) pre p15 (fun st => by simp) hs15
    rcases hs14 with ⟨p14, hs14⟩
    have hs13 := seqStep_split_no_marker (initStage13 o sched entries loaded) _
      (Event.backRefsSet p) pre p14
      (fun st => no_backRefsSet_in_call sched st "ready" [] p) hs14
    rcases hs13 with ⟨p13, hs13⟩
    have hs12 := seqStep_split_no_marker (initStage12 o sched entries loaded) _
      (Event.backRefsSet p) pre p13
      (fun st => no_backRefsSet_in_car sched st "postInit" [] p) hs13
    rcases hs12 with ⟨p12, hs12⟩
    have hs11 := seqStep_split_no_marker (initStage11 o sched entries loaded) _
      (Event.backRefsSet p) pre p12
      (fun st => no_backRefsSet_in_car sched st "init" [] p) hs12
    rcases hs11 with ⟨p11, hs11⟩
    have hs10 := seqStep_split_no_marker (initStage10 o sched entries loaded) _
      (Event.backRefsSet p) pre p11
      (fun st => by
        by_cases hd : hasDatabase o = true
        · rw [if_pos hd]
          exact no_backRefsSet_in_call sched st "collectModels" [] p
        · rw [if_neg hd]
          simp) hs11
    rcases hs10 with ⟨p10, hs10⟩
    have hs9 := seqStep_split_no_marker (initStage9 o sched entries loaded) _
      (Event.backRefsSet p) pre p10
      (fun st => by
        by_cases hg : o.useGot = true
        · rw [if_pos hg]
          exact no_backRefsSet_in_call sched st "handleGot" [JSVal.ref "got"] p
        · rw [if_neg hg]
          simp) hs10
    rcases hs9 with ⟨p9, hs9⟩
    have hs8 := seqStep_split_no_marker (initStage8 o sched entries loaded) _
      (Event.backRefsSet p) pre p9
      (fun st => by
        by_cases hsv : hasServer o = true
        · rw [if_pos hsv]
          exact no_backRefsSet_in_call sched st "handleKoa" [JSVal.ref "koa"] p
        · rw [if_neg hsv]
          simp) hs9
    rcases hs8 with ⟨p8, hs8⟩
    have hs7 := seqStep_split_no_marker (initStage7 o sched entries loaded) _
      (Event.backRefsSet p) pre p8
      (fun st => no_backRefsSet_in_car sched st "handleConfig" [JSVal.obj st.config] p) hs8
    rcases hs7 with ⟨p7, hs7⟩
    have hs6 := seqStep_split_no_marker (initStage6 o sched entries loaded) _
      (Event.backRefsSet p) pre p7
      (fun st => no_backRefsSet_in_disabled st p) hs7
    rcases hs6 with ⟨p6, hs6⟩
    have hs5 := seqStep_split_no_marker (initStage5 o sched entries) _
      (Event.backRefsSet p) pre p6 (fun st => by simp [phaseLoadConfig]) hs6
    rcases hs5 with ⟨p5, hs5⟩
    have hs4 := seqStep_split_no_marker (initStage4 o sched entries) _
      (Event.backRefsSet p) pre p5
      (fun st => no_backRefsSet_in_car sched st "preInit" [] p) hs5
    rcases hs4 with ⟨p4, hs4⟩
    have hs3 := seqStep_split_no_marker (initStage3 o sched entries) _
      (Event.backRefsSet p) pre p4
      (fun st => no_backRefsSet_in_gather sched st p) hs4
    rcases hs3 with ⟨p3, hs3⟩
    have hnot2 : ∀ ev, ev ∈ (initStage2 o sched entries).events →
        ∀ q2, ev ≠ Event.backRefsSet q2 := by
      intro ev hev q2
      rcases initStage2_events o sched entries ev hev with h1 | ⟨q3, h1⟩ | h1 <;> rw [h1] <;> simp
    rcases seqStep_cases (initStage2 o sched entries) doForManagedPluginsSync with he | he
    · have : initStage3 o sched entries = initStage2 o sched entries := he
      rw [this] at hs3
      have hx : Event.backRefsSet p ∈ (initStage2 o sched entries).events := by
        rw [hs3]
        exact List.mem_append_right _ (List.mem_cons_self _ _)
      exact absurd rfl (hnot2 _ hx p)
    · have heq : (initStage3 o sched entries).events
          = (initStage2 o sched entries).events
            ++ (doForManagedPluginsSync (initStage2 o sched entries).state).events := by
        show (seqStep (initStage2 o sched entries) doForManagedPluginsSync).events = _
        rw [he]
      rw [heq] at hs3
      rcases append_split_cases _ _ pre p3 (Event.backRefsSet p) hs3 with ⟨p2, hsp⟩ | ⟨pre2, hpre, hsuf⟩
      · have hx : Event.backRefsSet p ∈ (initStage2 o sched entries).events := by
          rw [hsp]
          exact List.mem_append_right _ (List.mem_cons_self _ _)
        exact absurd rfl (hnot2 _ hx p)
      · rw [hpre] at hmem
        rcases List.mem_append.mp hmem with hm1 | hm2
        · rcases initStage2_events o sched entries _ hm1 with h1 | ⟨q3, h1⟩ | h1
          · cases h1
          · injection h1 with e1 e2
          · cases h1
        · have hm3 : Event.hookInvoked hk q
              ∈ (doForManagedPluginsSync (initStage2 o sched entries).state).events := by
            rw [hsuf]
            exact List.mem_append_left _ hm2
          rcases doForManagedPluginsSync_events _ _ hm3 with ⟨q4, hq4⟩
          cases hq4
  · intro hout2 id p hid
    have h3eq := seqStep_ok (initStage2 o sched entries) doForManagedPluginsSync hout2
    have h3get : alGet (initStage3 o sched entries).state.plugins id
        = (alGet (initStage2 o sched entries).state.plugins id).map
            (fun v => if isManagedTrue v.isManagedByJaidCore then injectBackRefs v else v) := by
      show alGet (seqStep (initStage2 o sched entries) doForManagedPluginsSync).state.plugins id = _
      rw [h3eq]
      exact doForManagedPluginsSync_alGet _ id
    constructor
    · intro hman
      refine ⟨?_, rfl, rfl⟩
      rw [h3get, hid]
      simp [hman]
    · intro hman
      rw [h3get, hid]
      simp [hman]

/-- A managed plugin that also implements the `setCoreReference` hook. -/
def c2Plugin : Plugin :=
  { isManagedByJaidCore := JSVal.bool true,
    members := [("setCoreReference", HookMember.val (JSVal.num 1))] }

/-- C2 counterexample: with registry `[a := c2Plugin]`, the trace of `init`
invokes the `setCoreReference` hook on plugin `a` BEFORE the back-reference
injection event for `a`: a lifecycle hook is invoked before the
back-references are set, refuting "both back-references are set before any
lifecycle hook is invoked on any plugin". -/
theorem c2_counterexample :
    ∃ pre post p, (initModel {} (fun _ => [0]) [("a", c2Plugin)] []).events
        = pre ++ Event.backRefsSet p :: post
      ∧ ∃ hk q, Event.hookInvoked hk q ∈ pre := by
  refine ⟨[Event.infoLog "roster", Event.hookInvoked "setCoreReference" "a",
    Event.infoLog "setCoreReference"], [Event.infoLog "ready"], "a", ?_,
    "setCoreReference", "a", ?_⟩
  · rfl
  · simp

/-- A managed plugin with no hook members at all. -/
def c2WPlugin : Plugin :=
  { isManagedByJaidCore := JSVal.bool true }

theorem c2_backrefs_after_setcorereference_witness :
    (∀ hk q, Event.hookInvoked hk q ∈ [Event.infoLog "roster"] → hk = "setCoreReference")
      ∧ alGet (initStage3 {} (fun _ => [0]) [("w", c2WPlugin)]).state.plugins "w"
          = some (injectBackRefs c2WPlugin) := by
  have h := c2_backrefs_after_setcorereference {} (fun _ => [0]) [("w", c2WPlugin)] []
  constructor
  · intro hk q hq
    exact h.1 [Event.infoLog "roster"] [Event.infoLog "ready"] "w" rfl hk q hq
  · exact ((h.2 rfl "w" c2WPlugin rfl).1 rfl).1

/-- The identifiers the disabled-plugin application processes: the entries of
`config.disabledPlugins` via `ensure-array`, guarded by the `hasContent`
check of line 843. -/
def disabledIds (st : CoreState) : List String :=
  if hasContent ((alGet st.config "disabledPlugins").getD JSVal.undef) then
    (ensureArrayJS ((alGet st.config "disabledPlugins").getD JSVal.undef)).map jsKeyString
  else []

theorem disabledFoldl_alGet (l : List JSVal) (a : CoreState × List Event × List String)
    (id : String) :
    alGet (l.foldl disabledStep a).1.plugins id
      = if id ∈ l.map jsKeyString then none else alGet a.1.plugins id := by
  induction l generalizing a with
  | nil => simp
  | cons v rest ih =>
    rw [List.foldl_cons, ih]
    by_cases hr : id ∈ rest.map jsKeyString
    · rw [if_pos hr, if_pos (by simp [hr])]
    · rw [if_neg hr]
      by_cases hv : id = jsKeyString v
      · rw [if_pos (by simp [hv])]
        unfold disabledStep
        by_cases hifs : (alGet a.1.plugins (jsKeyString v)).isSome = true
        · rw [if_pos hifs]
          show alGet (alDelete a.1.plugins (jsKeyString v)) id = none
          rw [hv]
          exact alGet_alDelete_self _ _
        · rw [if_neg hifs]
          show alGet a.1.plugins id = none
          rw [hv]
          cases hval : alGet a.1.plugins (jsKeyString v)
          · rfl
          · rw [hval] at hifs
            exact absurd rfl hifs
      · rw [if_neg (by simp [hv, hr])]
        unfold disabledStep
        by_cases hifs : (alGet a.1.plugins (jsKeyString v)).isSome = true
        · rw [if_pos hifs]
          exact alGet_alDelete_ne _ _ _ hv
        · rw [if_neg hifs]
    
theorem disabledFoldl_events_mono (l : List JSVal) (a : CoreState × List Event × List String)
    (ev : Event) (hev : ev ∈ a.2.1) : ev ∈ (l.foldl disabledStep a).2.1 := by
  induction l generalizing a with
  | nil => exact hev
  | cons v rest ih =>
    rw [List.foldl_cons]
    apply ih
    unfold disabledStep
    by_cases hifs : (alGet a.1.plugins (jsKeyString v)).isSome = true
    · rw [if_pos hifs]
      exact List.mem_append_left _ hev
    · rw [if_neg hifs]
      exact List.mem_append_left _ hev

theorem disabledFoldl_warn (l : List JSVal) (a : CoreState × List Event × List String)
    (id : String) (hin : id ∈ l.map jsKeyString) (hnone : alGet a.1.plugins id = none) :
    Event.warnUnknownDisabled id ∈ (l.foldl disabledStep a).2.1 := by
  induction l generalizing a with
  | nil => cases hin
  | cons v rest ih =>
    rw [List.foldl_cons]
    rcases List.mem_cons.mp hin with hv | hr
    · have hifs : (alGet a.1.plugins (jsKeyString v)).isSome = false := by
        rw [← hv, hnone]
        rfl
      apply disabledFoldl_events_mono
      unfold disabledStep
      rw [if_neg (by rw [hifs]; simp)]
      rw [hv]
      exact List.mem_append_right _ (List.mem_singleton.mpr rfl)
    · apply ih _ hr
      unfold disabledStep
      by_cases hifs : (alGet a.1.plugins (jsKeyString v)).isSome = true
      · rw [if_pos hifs]
        by_cases hv : id = jsKeyString v
        · rw [hv] at hnone
          rw [hnone] at hifs
          cases hifs
        · show alGet (alDelete a.1.plugins (jsKeyString v)) id = none
          rw [alGet_alDelete_ne _ _ _ hv]
          exact hnone
      · rw [if_neg hifs]
        exact hnone

/-- C8: for every identifier in `config.disabledPlugins` (lines 843-856): a
registered plugin of that identifier is deleted from the registry, and this
happens before any hook other than the pre-config ones (`setCoreReference`,
`getConfigSetup`, `preInit`) fires; an unknown identifier only produces a
warning — the step never throws — and leaves every identifier outside the
list untouched. -/
theorem c8_disabled_plugins (st : CoreState) (o : Options) (sched : Nat → List Nat)
    (entries : List (String × Plugin)) (loaded : List (String × JSVal)) :
    (∀ id, id ∈ disabledIds st → alGet (applyDisabledPlugins st).state.plugins id = none)
      ∧ (∀ id, id ∈ disabledIds st → alGet st.plugins id = none →
          Event.warnUnknownDisabled id ∈ (applyDisabledPlugins st).events)
      ∧ (applyDisabledPlugins st).outcome = Except.ok ()
      ∧ (∀ id, id ∉ disabledIds st →
          alGet (applyDisabledPlugins st).state.plugins id = alGet st.plugins id)
      ∧ (∀ (pre post : List Event) (p : String),
          (initModel o sched entries loaded).events = pre ++ Event.pluginDisabled p :: post →
          ∀ hk q, Event.hookInvoked hk q ∈ pre →
            hk = "setCoreReference" ∨ hk = "getConfigSetup" ∨ hk = "preInit") := by
  refine ⟨?_, ?_, applyDisabledPlugins_outcome st, ?_, ?_⟩
  · intro id hin
    unfold disabledIds at hin
    by_cases hg : hasContent ((alGet st.config "disabledPlugins").getD JSVal.undef) = true
    · rw [if_pos hg] at hin
      unfold applyDisabledPlugins
      rw [if_pos hg]
      show alGet (disabledFold st).1.plugins id = none
      unfold disabledFold
      rw [disabledFoldl_alGet]
      rw [if_pos hin]
    · rw [if_neg hg] at hin
      cases hin
  · intro id hin hnone
    unfold disabledIds at hin
    by_cases hg : hasContent ((alGet st.config "disabledPlugins").getD JSVal.undef) = true
    · rw [if_pos hg] at hin
      unfold applyDisabledPlugins
      rw [if_pos hg]
      show Event.warnUnknownDisabled id ∈ (disabledFold st).2.1 ++ _
      apply List.mem_append_left
      unfold disabledFold
      exact disabledFoldl_warn _ (st, [], []) id hin hnone
    · rw [if_neg hg] at hin
      cases hin
  · intro id hnin
    unfold disabledIds at hnin
    by_cases hg : hasContent ((alGet st.config "disabledPlugins").getD JSVal.undef) = true
    · rw [if_pos hg] at hnin
      unfold applyDisabledPlugins
      rw [if_pos hg]
      show alGet (disabledFold st).1.plugins id = _
      unfold disabledFold
      rw [disabledFoldl_alGet]
      rw [if_neg hnin]
    · unfold applyDisabledPlugins
      rw [if_neg hg]
  · intro pre post p hsplit hk q hmem
    have hs15 := initCatch_split (initStage15 o sched entries loaded)
      (Event.pluginDisabled p) pre post (by simp) hsplit
    rcases hs15 with ⟨p15, hs15⟩
    have hs14 := seqStep_split_no_marker (initStage14 o sched entries loaded) _
      (Event.pluginDisabled p) pre p15 (fun st2 => by simp) hs15
    rcases hs14 with ⟨p14, hs14⟩
    have hs13 := seqStep_split_no_marker (initStage13 o sched entries loaded) _
      (Event.pluginDisabled p) pre p14
      (fun st2 => no_disabled_in_call sched st2 "ready" [] p) hs14
    rcases hs13 with ⟨p13, hs13⟩
    have hs12 := seqStep_split_no_marker (initStage12 o sched entries loaded) _
      (Event.pluginDisabled p) pre p13
      (fun st2 => no_disabled_in_car sched st2 "postInit" [] p) hs13
    rcases hs12 with ⟨p12, hs12⟩
    have hs11 := seqStep_split_no_marker (initStage11 o sched entries loaded) _
      (Event.pluginDisabled p) pre p12
      (fun st2 => no_disabled_in_car sched st2 "init" [] p) hs12
    rcases hs11 with ⟨p11, hs11⟩
    have hs10 := seqStep_split_no_marker (initStage10 o sched entries loaded) _
      (Event.pluginDisabled p) pre p11
      (fun st2 => by
        by_cases hd : hasDatabase o = true
        · rw [if_pos hd]
          exact no_disabled_in_call sched st2 "collectModels" [] p
        · rw [if_neg hd]
          simp) hs11
    rcases hs10 with ⟨p10, hs10⟩
    have hs9 := seqStep_split_no_marker (initStage9 o sched entries loaded) _
      (Event.pluginDisabled p) pre p10
      (fun st2 => by
        by_cases hg : o.useGot = true
        · rw [if_pos hg]
          exact no_disabled_in_call sched st2 "handleGot" [JSVal.ref "got"] p
        · rw [if_neg hg]
          simp) hs10
    rcases hs9 with ⟨p9, hs9⟩
    have hs8 := seqStep_split_no_marker (initStage8 o sched entries loaded) _
      (Event.pluginDisabled p) pre p9
      (fun st2 => by
        by_cases hsv : hasServer o = true
        · rw [if_pos hsv]
          exact no_disabled_in_call sched st2 "handleKoa" [JSVal.ref "koa"] p
        · rw [if_neg hsv]
          simp) hs9
    rcases hs8 with ⟨p8, hs8⟩
    have hs7 := seqStep_split_no_marker (initStage7 o sched entries loaded) _
      (Event.pluginDisabled p) pre p8
      (fun st2 => no_disabled_in_car sched st2 "handleConfig" [JSVal.obj st2.config] p) hs8
    rcases hs7 with ⟨p7, hs7⟩
    have hnot6 : ∀ ev, ev ∈ (initStage6 o sched entries loaded).events →
        ∀ q2, ev ≠ Event.pluginDisabled q2 := by
      intro ev hev q2
      rcases initStage6_events o sched entries loaded ev hev with
        h1 | ⟨q3, h1⟩ | h1 | ⟨q3, h1⟩ | ⟨q3, h1⟩ | h1 | ⟨q3, h1⟩ | h1 | ⟨q3, h1⟩ | h1
        <;> rw [h1] <;> simp
    rcases seqStep_cases (initStage6 o sched entries loaded) applyDisabledPlugins with he | he
    · have h7eq : initStage7 o sched entries loaded = initStage6 o sched entries loaded := he
      rw [h7eq] at hs7
      have hx : Event.pluginDisabled p ∈ (initStage6 o sched entries loaded).events := by
        rw [hs7]
        exact List.mem_append_right _ (List.mem_cons_self _ _)
      exact absurd rfl (hnot6 _ hx p)
    · have heq : (initStage7 o sched entries loaded).events
          = (initStage6 o sched entries loaded).events
            ++ (applyDisabledPlugins (initStage6 o sched entries loaded).state).events := by
        show (seqStep (initStage6 o sched entries loaded) applyDisabledPlugins).events = _
        rw [he]
      rw [heq] at hs7
      rcases append_split_cases _ _ pre p7 (Event.pluginDisabled p) hs7 with
        ⟨p6, hsp⟩ | ⟨pre2, hpre, hsuf⟩
      · have hx : Event.pluginDisabled p ∈ (initStage6 o sched entries loaded).events := by
          rw [hsp]
          exact List.mem_append_right _ (List.mem_cons_self _ _)
        exact absurd rfl (hnot6 _ hx p)
      · rw [hpre] at hmem
        rcases List.mem_append.mp hmem with hm1 | hm2
        · rcases initStage6_events o sched entries loaded _ hm1 with
            h1 | ⟨q3, h1⟩ | h1 | ⟨q3, h1⟩ | ⟨q3, h1⟩ | h1 | ⟨q3, h1⟩ | h1 | ⟨q3, h1⟩ | h1
          · cases h1
          · injection h1 with e1 e2
            exact Or.inl e1
          · cases h1
          · cases h1
          · injection h1 with e1 e2
            exact Or.inr (Or.inl e1)
          · cases h1
          · injection h1 with e1 e2
            exact Or.inr (Or.inr e1)
          · cases h1
          · cases h1
          · cases h1
        · have hm3 : Event.hookInvoked hk q
              ∈ (applyDisabledPlugins (initStage6 o sched entries loaded).state).events := by
            rw [hsuf]
            exact List.mem_append_left _ hm2
          rcases applyDisabledPlugins_events_mem _ _ hm3 with ⟨q4, hq4⟩ | ⟨q4, hq4⟩ | hq4
            <;> cases hq4

/-- A plugin with no members and no managed marker, used in the C8 witness
runs. -/
def c8WPlugin : Plugin := {}

/-- A state in which plugins `a` and `b` are registered and the loaded
config disables `a` (registered) and `ghost` (unknown). -/
def c8State : CoreState :=
  { plugins := [("a", c8WPlugin), ("b", c8WPlugin)],
    config := [("disabledPlugins", JSVal.arr [JSVal.str "a", JSVal.str "ghost"])] }

theorem c8_disabled_plugins_witness :
    alGet (applyDisabledPlugins c8State).state.plugins "a" = none
      ∧ Event.warnUnknownDisabled "ghost" ∈ (applyDisabledPlugins c8State).events
      ∧ (applyDisabledPlugins c8State).outcome = Except.ok ()
      ∧ alGet (applyDisabledPlugins c8State).state.plugins "b" = alGet c8State.plugins "b"
      ∧ (∀ hk q, Event.hookInvoked hk q ∈ [Event.infoLog "roster"] →
          hk = "setCoreReference" ∨ hk = "getConfigSetup" ∨ hk = "preInit") := by
  have h := c8_disabled_plugins c8State {} (fun _ => [0]) [("a", c8WPlugin)]
    [("disabledPlugins", JSVal.arr [JSVal.str "a"])]
  refine ⟨h.1 "a" (List.mem_of_elem_eq_true (by rfl)),
    h.2.1 "ghost" (List.mem_of_elem_eq_true (by rfl)) rfl,
    h.2.2.1,
    h.2.2.2.1 "b" ?_,
    ?_⟩
  · intro hmem
    have he : List.elem "b" (disabledIds c8State) = true := List.elem_eq_true_of_mem hmem
    have hf : List.elem "b" (disabledIds c8State) = false := rfl
    rw [hf] at he
    cases he
  · intro hk q hq
    exact h.2.2.2.2 [Event.infoLog "roster"]
      [Event.infoLog "disabled", Event.infoLog "ready"] "a" rfl hk q hq
